import Mathlib

/-!
# Animation Frame Exporter — verification of the clip assembly and serialization core

Shallow embedding of the Blender add-on `AnimationFrameExporter/__init__.py`
(functions `export_multiple_animations` and `export_animation_frames_raw`) and
proofs about it.

Modelling conventions:
* Frame numbers coming from clip settings are natural numbers (the add-on's
  integer properties have `min=0` / `min=1`); the host scene's current frame and
  `frame_start` are integers.
* Python's `range(a, b, s)` (for `s ≥ 1`, non-negative bounds) is `pyRange a b s`.
* Matrices are 4×4 over `ℚ`; `float32` rounding is abstracted away (the claims
  under verification are about element order and buffer lengths, not rounding).
* The host (Blender) is an external collaborator: bone pose matrices are an
  opaque function of the active action and the current frame, and the
  pose-copy/paste/interpolation machinery used for transition clips is an opaque
  function of the (source action, destination action, frame) triple.
* Python `str.replace` / `str.split` are re-implemented over `List Char` with
  Python's left-to-right non-overlapping semantics (`pyReplace`, `pySplit`),
  since kernel reduction is needed for concrete evaluation.
-/

namespace AnimationFrameExporter

/-- Python `range(a, b, s)` for `s ≥ 1` over naturals: the values
`a, a + s, a + 2*s, …` strictly below `b`. -/
def pyRange (a b s : Nat) : List Nat :=
  (List.range ((b - a + (s - 1)) / s)).map (fun i => a + i * s)

/-- Frame Sampler, translated from `export_multiple_animations` (lines 258-265)
and `export_animation_frames_raw` (lines 560-565), which contain the identical
logic: if `export_all_frames`, `list(range(start_frame, end_frame + 1))`;
otherwise `list(range(start_frame, end_frame + 1, frame_step))` with
`end_frame` appended when the last stepped value is not already `end_frame`. -/
def framesToExport (start_frame end_frame frame_step : Nat)
    (export_all_frames : Bool) : List Nat :=
  if export_all_frames then
    pyRange start_frame (end_frame + 1) 1
  else
    let fs := pyRange start_frame (end_frame + 1) frame_step
    if fs.getLast? = some end_frame then fs else fs ++ [end_frame]

/-! ## Arithmetic facts about `pyRange` -/

lemma pyRange_succ_div (a e s : Nat) (hs : 1 ≤ s) (hae : a ≤ e) :
    pyRange a (e + 1) s = (List.range ((e - a) / s + 1)).map (fun i => a + i * s) := by
  unfold pyRange
  congr 2
  have h1 : e + 1 - a + (s - 1) = (e - a) + s := by omega
  rw [h1, Nat.add_div_right _ (by omega)]

lemma pyRange_head? (a e s : Nat) (hs : 1 ≤ s) (hae : a ≤ e) :
    (pyRange a (e + 1) s).head? = some a := by
  rw [pyRange_succ_div a e s hs hae, List.range_succ_eq_map]
  simp

lemma pyRange_getLast? (a e s : Nat) (hs : 1 ≤ s) (hae : a ≤ e) :
    (pyRange a (e + 1) s).getLast? = some (a + ((e - a) / s) * s) := by
  rw [pyRange_succ_div a e s hs hae, List.range_succ, List.map_append]
  simp

lemma pyRange_chain' (a e s : Nat) (hs : 1 ≤ s) :
    List.Chain' (· < ·) (pyRange a (e + 1) s) := by
  unfold pyRange
  rw [List.chain'_iff_pairwise]
  refine List.Pairwise.map _ ?_ (List.pairwise_lt_range _)
  intro i j hij
  have : i * s < j * s := Nat.mul_lt_mul_of_lt_of_le hij (Nat.le_refl s) (by omega)
  omega

lemma pyRange_mem (a e s x : Nat) (hs : 1 ≤ s) (hae : a ≤ e)
    (hx : x ∈ pyRange a (e + 1) s) : x ≤ e ∧ ∃ i, x = a + i * s := by
  rw [pyRange_succ_div a e s hs hae] at hx
  obtain ⟨i, hi, rfl⟩ := List.mem_map.mp hx
  rw [List.mem_range] at hi
  refine ⟨?_, i, rfl⟩
  have h1 : i ≤ (e - a) / s := by omega
  have h2 : i * s ≤ (e - a) / s * s := Nat.mul_le_mul_right s h1
  have h3 : (e - a) / s * s ≤ e - a := Nat.div_mul_le_self _ _
  omega

lemma pyRange_mem_of_le (a e s i : Nat) (hs : 1 ≤ s) (hae : a ≤ e)
    (hle : a + i * s ≤ e) : a + i * s ∈ pyRange a (e + 1) s := by
  rw [pyRange_succ_div a e s hs hae]
  refine List.mem_map.mpr ⟨i, List.mem_range.mpr ?_, rfl⟩
  have : i * s ≤ e - a := by omega
  have : i ≤ (e - a) / s := (Nat.le_div_iff_mul_le (by omega)).mpr this
  omega

lemma pyRange_ne_nil (a e s : Nat) (hs : 1 ≤ s) (hae : a ≤ e) :
    pyRange a (e + 1) s ≠ [] := by
  intro h
  have := pyRange_head? a e s hs hae
  rw [h] at this
  simp at this

/-- The last stepped value does not exceed the end frame. -/
lemma pyRange_getLast?_le (a e s : Nat) (hs : 1 ≤ s) (hae : a ≤ e) :
    a + ((e - a) / s) * s ≤ e := by
  have h3 : (e - a) / s * s ≤ e - a := Nat.div_mul_le_self _ _
  omega

/-! ## Basic facts about `framesToExport` -/

lemma framesToExport_all (start_frame end_frame frame_step : Nat)
    (hse : start_frame ≤ end_frame) :
    framesToExport start_frame end_frame frame_step true
      = List.range' start_frame (end_frame + 1 - start_frame) := by
  unfold framesToExport
  rw [if_pos rfl, pyRange_succ_div start_frame end_frame 1 (le_refl 1) hse, Nat.div_one]
  have h1 : end_frame + 1 - start_frame = end_frame - start_frame + 1 := by omega
  rw [h1, List.range'_eq_map_range]
  exact List.map_congr_left (fun i _ => by omega)

lemma framesToExport_head? (start_frame end_frame frame_step : Nat)
    (export_all_frames : Bool) (hse : start_frame ≤ end_frame) (hstep : 1 ≤ frame_step) :
    (framesToExport start_frame end_frame frame_step export_all_frames).head?
      = some start_frame := by
  unfold framesToExport
  cases export_all_frames with
  | true => rw [if_pos rfl]; exact pyRange_head? _ _ _ (le_refl 1) hse
  | false =>
    rw [if_neg (by simp)]
    by_cases h : (pyRange start_frame (end_frame + 1) frame_step).getLast?
        = some end_frame
    · rw [if_pos h]
      exact pyRange_head? _ _ _ hstep hse
    · simp only [if_neg h, List.head?_append,
        pyRange_head? start_frame end_frame frame_step hstep hse]
      rfl

lemma framesToExport_getLast? (start_frame end_frame frame_step : Nat)
    (export_all_frames : Bool) (hse : start_frame ≤ end_frame) (hstep : 1 ≤ frame_step) :
    (framesToExport start_frame end_frame frame_step export_all_frames).getLast?
      = some end_frame := by
  unfold framesToExport
  cases export_all_frames with
  | true =>
    rw [if_pos rfl, pyRange_getLast? _ _ _ (le_refl 1) hse]
    congr 1
    omega
  | false =>
    rw [if_neg (by simp)]
    by_cases h : (pyRange start_frame (end_frame + 1) frame_step).getLast?
        = some end_frame
    · rw [if_pos h]
      exact h
    · rw [if_neg h]
      exact List.getLast?_concat _

lemma framesToExport_chain' (start_frame end_frame frame_step : Nat)
    (export_all_frames : Bool) (hse : start_frame ≤ end_frame) (hstep : 1 ≤ frame_step) :
    List.Chain' (· < ·) (framesToExport start_frame end_frame frame_step export_all_frames) := by
  unfold framesToExport
  cases export_all_frames with
  | true => rw [if_pos rfl]; exact pyRange_chain' _ _ _ (le_refl 1)
  | false =>
    rw [if_neg (by simp)]
    by_cases h : (pyRange start_frame (end_frame + 1) frame_step).getLast?
        = some end_frame
    · rw [if_pos h]
      exact pyRange_chain' _ _ _ hstep
    · rw [if_neg h, List.chain'_append]
      refine ⟨pyRange_chain' _ _ _ hstep, List.chain'_singleton _, ?_⟩
      intro x hx y hy
      rw [pyRange_getLast? _ _ _ hstep hse] at hx
      simp only [Option.mem_def, Option.some_inj] at hx
      simp only [List.head?_cons, Option.mem_def, Option.some_inj] at hy
      subst hx; subst hy
      have hle := pyRange_getLast?_le start_frame end_frame frame_step hstep hse
      have hne : start_frame + (end_frame - start_frame) / frame_step * frame_step
          ≠ end_frame := by
        intro hcontra
        rw [pyRange_getLast? _ _ _ hstep hse] at h
        exact h (by rw [hcontra])
      omega

lemma framesToExport_mem (start_frame end_frame frame_step : Nat) (x : Nat)
    (hse : start_frame ≤ end_frame) (hstep : 1 ≤ frame_step)
    (hx : x ∈ framesToExport start_frame end_frame frame_step false) :
    x ≤ end_frame ∧ (x = end_frame ∨ ∃ i, x = start_frame + i * frame_step) := by
  unfold framesToExport at hx
  rw [if_neg (by simp)] at hx
  by_cases h : (pyRange start_frame (end_frame + 1) frame_step).getLast?
      = some end_frame
  · rw [if_pos h] at hx
    have := pyRange_mem _ _ _ x hstep hse hx
    exact ⟨this.1, Or.inr this.2⟩
  · rw [if_neg h] at hx
    rw [List.mem_append, List.mem_singleton] at hx
    rcases hx with hx | hx
    · have := pyRange_mem _ _ _ x hstep hse hx
      exact ⟨this.1, Or.inr this.2⟩
    · exact ⟨by omega, Or.inl hx⟩

lemma framesToExport_mem_of_le (start_frame end_frame frame_step i : Nat)
    (hse : start_frame ≤ end_frame) (hstep : 1 ≤ frame_step)
    (hle : start_frame + i * frame_step ≤ end_frame) :
    start_frame + i * frame_step ∈ framesToExport start_frame end_frame frame_step false := by
  unfold framesToExport
  rw [if_neg (by simp)]
  have hmem := pyRange_mem_of_le start_frame end_frame frame_step i hstep hse hle
  by_cases h : (pyRange start_frame (end_frame + 1) frame_step).getLast?
      = some end_frame
  · rw [if_pos h]
    exact hmem
  · rw [if_neg h]
    exact List.mem_append.mpr (Or.inl hmem)

lemma framesToExport_ne_nil (start_frame end_frame frame_step : Nat)
    (export_all_frames : Bool) (hse : start_frame ≤ end_frame) (hstep : 1 ≤ frame_step) :
    framesToExport start_frame end_frame frame_step export_all_frames ≠ [] := by
  intro h
  have := framesToExport_head? start_frame end_frame frame_step export_all_frames hse hstep
  rw [h] at this
  simp at this

/-- C1: for every clip with `start ≤ end` and `step ≥ 1`, the Frame Sampler's
output is strictly increasing, begins with `start_frame` and ends exactly with
`end_frame`; when `export_all_frames` is true it is every integer in
`[start_frame, end_frame]` (the step is ignored); otherwise its members are
exactly the stepped values `start_frame + i * frame_step` not exceeding
`end_frame`, together with `end_frame` itself (appended only when the last
stepped value missed it).  Together with strict monotonicity this membership
characterization pins the sequence uniquely. -/
theorem C1_frame_sampler (start_frame end_frame frame_step : Nat)
    (export_all_frames : Bool)
    (hse : start_frame ≤ end_frame) (hstep : 1 ≤ frame_step) :
    (framesToExport start_frame end_frame frame_step export_all_frames).head?
        = some start_frame ∧
    (framesToExport start_frame end_frame frame_step export_all_frames).getLast?
        = some end_frame ∧
    List.Chain' (· < ·)
        (framesToExport start_frame end_frame frame_step export_all_frames) ∧
    (export_all_frames = true →
      framesToExport start_frame end_frame frame_step export_all_frames
        = List.range' start_frame (end_frame + 1 - start_frame)) ∧
    (export_all_frames = false →
      (∀ x ∈ framesToExport start_frame end_frame frame_step export_all_frames,
        x ≤ end_frame ∧ (x = end_frame ∨ ∃ i, x = start_frame + i * frame_step)) ∧
      (∀ i, start_frame + i * frame_step ≤ end_frame →
        start_frame + i * frame_step
          ∈ framesToExport start_frame end_frame frame_step export_all_frames)) := by
  refine ⟨framesToExport_head? _ _ _ _ hse hstep,
    framesToExport_getLast? _ _ _ _ hse hstep,
    framesToExport_chain' _ _ _ _ hse hstep, ?_, ?_⟩
  · intro hall
    subst hall
    exact framesToExport_all _ _ _ hse
  · intro hall
    subst hall
    exact ⟨fun x hx => framesToExport_mem _ _ _ x hse hstep hx,
      fun i hi => framesToExport_mem_of_le _ _ _ i hse hstep hi⟩

/-- Witness for C1 at the spec's own scenario `start=1, end=5, step=2`
(sequence `[1, 3, 5]`). -/
theorem C1_frame_sampler_witness :
    ((1 : Nat) ≤ 5 ∧ (1 : Nat) ≤ 2) ∧
    ((framesToExport 1 5 2 false).head? = some 1 ∧
     (framesToExport 1 5 2 false).getLast? = some 5 ∧
     List.Chain' (· < ·) (framesToExport 1 5 2 false) ∧
     (false = true → framesToExport 1 5 2 false = List.range' 1 (5 + 1 - 1)) ∧
     (false = false →
       (∀ x ∈ framesToExport 1 5 2 false,
         x ≤ 5 ∧ (x = 5 ∨ ∃ i, x = 1 + i * 2)) ∧
       (∀ i, 1 + i * 2 ≤ 5 → 1 + i * 2 ∈ framesToExport 1 5 2 false))) :=
  ⟨⟨by decide, by decide⟩, C1_frame_sampler 1 5 2 false (by decide) (by decide)⟩

/-! ## Matrices and the Matrix Packer -/

/-- A 4×4 matrix over `ℚ`, indexed `M row col` like `mathutils.Matrix`'s
`mat[row][col]`. -/
def Mat4 : Type := Fin 4 → Fin 4 → ℚ

/-- The 4×4 matrix product (`A @ B` of `mathutils`), written out like the
row-by-column product. -/
def matMul (A B : Mat4) : Mat4 :=
  fun r c => A r 0 * B 0 c + A r 1 * B 1 c + A r 2 * B 2 c + A r 3 * B 3 c

/-- The 16-element flattening of one matrix, translated from the inner loops
`for col in range(4): for row in range(4): … mat[row][col]` (lines 223-225,
288-291, 576-579). -/
def packMatrix (mat : Mat4) : List ℚ :=
  (List.finRange 4).flatMap (fun col => (List.finRange 4).map (fun row => mat row col))

/-- One pose: a matrix per bone, in the armature's fixed bone order
(`arm.pose.bones`). -/
def Pose (numBones : Nat) : Type := Fin numBones → Mat4

/-- Flattening of one frame: `for bone in arm.pose.bones:` with
`mat = BLENDER_TO_THREE @ arm.matrix_world @ bone.matrix` then the 16-element
inner loops (lines 221-226 / 286-291 / 574-579). -/
def collectMatrices (numBones : Nat) (transform world : Mat4)
    (p : Pose numBones) : List ℚ :=
  (List.finRange numBones).flatMap
    (fun bone => packMatrix (matMul (matMul transform world) (p bone)))

/-- Matrix Packer over a frame list: frames concatenated in sampling order
(the `for f_idx, f_num in enumerate(frames_to_export)` loops). -/
def packFrames (numBones : Nat) (transform world : Mat4)
    (poseAt : Nat → Pose numBones) (frames : List Nat) : List ℚ :=
  frames.flatMap (fun f => collectMatrices numBones transform world (poseAt f))

lemma length_flatMap_const {α β : Type} (l : List α) (g : α → List β) (k : Nat)
    (h : ∀ x ∈ l, (g x).length = k) : (l.flatMap g).length = l.length * k := by
  induction l with
  | nil => simp
  | cons x xs ih =>
    simp only [List.flatMap_cons, List.length_append, List.length_cons]
    rw [h x (List.mem_cons_self x xs), ih (fun y hy => h y (List.mem_cons_of_mem x hy))]
    ring

lemma packMatrix_length (mat : Mat4) : (packMatrix mat).length = 16 := rfl

lemma collectMatrices_length (numBones : Nat) (transform world : Mat4)
    (p : Pose numBones) :
    (collectMatrices numBones transform world p).length = numBones * 16 := by
  unfold collectMatrices
  rw [length_flatMap_const _ _ 16 (fun x _ => packMatrix_length _), List.length_finRange]

/-- Indexing into a flat-map whose chunks all have length `k`. -/
lemma getElem?_flatMap_const {α β : Type} (l : List α) (g : α → List β)
    (k : Nat) (hk : ∀ x ∈ l, (g x).length = k) :
    ∀ (i j : Nat) (hi : i < l.length), j < k →
      (l.flatMap g)[i * k + j]? = (g (l.get ⟨i, hi⟩))[j]? := by
  induction l with
  | nil => intro i j hi _; simp at hi
  | cons x xs ih =>
    intro i j hi hj
    cases i with
    | zero =>
      simp only [List.flatMap_cons, Nat.zero_mul, Nat.zero_add]
      rw [List.getElem?_append_left]
      · rfl
      · rw [hk x (List.mem_cons_self x xs)]; exact hj
    | succ i =>
      simp only [List.flatMap_cons]
      rw [List.getElem?_append_right]
      · have harith : (i + 1) * k + j - (g x).length = i * k + j := by
          rw [hk x (List.mem_cons_self x xs)]
          ring_nf
          omega
        rw [harith]
        have hi' : i < xs.length := by simpa using hi
        rw [ih (fun y hy => hk y (List.mem_cons_of_mem x hy)) i j hi' hj]
        rfl
      · rw [hk x (List.mem_cons_self x xs)]
        calc k ≤ (i + 1) * k := by nlinarith
          _ ≤ (i + 1) * k + j := Nat.le_add_right _ _

lemma packMatrix_getElem? (mat : Mat4) (r c : Fin 4) :
    (packMatrix mat)[(c : Nat) * 4 + (r : Nat)]? = some (mat r c) := by
  fin_cases r <;> fin_cases c <;> rfl

/-- C6: for every sampled frame (in sampling order) and every bone in the fixed
bone order, the Matrix Packer writes the 16 elements of
`transform * world * bone_local` in element order "columns outer, rows inner":
the buffer element at offset `f_idx * num_bones * 16 + bone_idx * 16 + col * 4 + row`
is `M[row][col]` of the transformed matrix of bone `bone_idx` at the
`f_idx`-th sampled frame. -/
theorem C6_matrix_packer (numBones : Nat) (transform world : Mat4)
    (poseAt : Nat → Pose numBones) (frames : List Nat)
    (fIdx bIdx : Nat) (r c : Fin 4)
    (hf : fIdx < frames.length) (hb : bIdx < numBones) :
    (packFrames numBones transform world poseAt frames)[fIdx * numBones * 16
        + bIdx * 16 + ((c : Nat) * 4 + (r : Nat))]?
      = some (matMul (matMul transform world)
          (poseAt (frames.get ⟨fIdx, hf⟩) ⟨bIdx, hb⟩) r c) := by
  have hcr : (c : Nat) * 4 + (r : Nat) < 16 := by
    have h4 := c.isLt
    have h5 := r.isLt
    omega
  have hbj : bIdx * 16 + ((c : Nat) * 4 + (r : Nat)) < numBones * 16 := by
    have : bIdx + 1 ≤ numBones := hb
    nlinarith
  have hidx : fIdx * numBones * 16 + bIdx * 16 + ((c : Nat) * 4 + (r : Nat))
      = fIdx * (numBones * 16) + (bIdx * 16 + ((c : Nat) * 4 + (r : Nat))) := by
    ring
  rw [hidx]
  unfold packFrames
  rw [getElem?_flatMap_const frames _ (numBones * 16)
    (fun x _ => collectMatrices_length numBones transform world (poseAt x))
    fIdx _ hf hbj]
  unfold collectMatrices
  have hb' : bIdx < (List.finRange numBones).length := by
    rw [List.length_finRange]; exact hb
  rw [getElem?_flatMap_const (List.finRange numBones) _ 16
    (fun x _ => packMatrix_length _) bIdx _ hb' hcr]
  have hfin : (List.finRange numBones).get ⟨bIdx, hb'⟩ = ⟨bIdx, hb⟩ := by
    simp [List.get_eq_getElem, List.getElem_finRange, Fin.cast]
  rw [hfin, packMatrix_getElem?]

/-- Concrete transform used by witnesses: a stand-in for `BLENDER_TO_THREE`
(the exact rotation value is irrelevant to the order/length claims). -/
def wTransform : Mat4 := fun r c => if r = c then 1 else 0

/-- Concrete world matrix used by witnesses. -/
def wWorld : Mat4 := fun r c => (r : ℚ) + 4 * (c : ℚ)

/-- Concrete pose source used by witnesses. -/
def wPoseAt : Nat → Pose 1 := fun f _ => fun r c => (f : ℚ) + (r : ℚ) - (c : ℚ)

/-- Witness for C6: one bone, one frame, element `(row, col) = (2, 1)` sits at
buffer offset `1 * 4 + 2 = 6`. -/
theorem C6_matrix_packer_witness :
    (0 < ([5] : List Nat).length ∧ 0 < 1) ∧
    (packFrames 1 wTransform wWorld wPoseAt [5])[0 * 1 * 16 + 0 * 16
        + ((1 : Nat) * 4 + (2 : Nat))]?
      = some (matMul (matMul wTransform wWorld)
          (wPoseAt (([5] : List Nat).get ⟨0, by decide⟩) ⟨0, by decide⟩) 2 1) :=
  ⟨⟨by decide, by decide⟩,
    C6_matrix_packer 1 wTransform wWorld wPoseAt [5] 0 0 2 1 (by decide) (by decide)⟩

/-! ## Data model of the multi-export pipeline (`export_multiple_animations`) -/

/-- Error taxonomy of the export entry points (the code raises generic
`Exception`s with fixed message texts; each distinct raise site gets one
constructor). -/
inductive ExportError : Type
  /-- Message "Please select an armature object first". -/
  | missingArmature : ExportError
  /-- Message "No animations selected for export". -/
  | noClipsSelected : ExportError
  /-- Message "Start frame cannot be after end frame for animation: …" (line 256). -/
  | invalidRange : String → ExportError
  /-- Message "Start frame cannot be after end frame" (line 555, single export). -/
  | invalidRangeSingle : ExportError
  /-- Message "Please provide an animation name or ensure the armature has an action". -/
  | ambiguousName : ExportError
  /-- Message "No animation found for full range export". -/
  | noActionForFullRange : ExportError
  /-- Message "Please save your blend file first to use binary export". -/
  | unsavedDocument : ExportError
deriving DecidableEq

/-- The `export_method` enum property. -/
inductive ExportMethod : Type
  | BIN : ExportMethod
  | PROPERTY : ExportMethod
deriving DecidableEq

/-- One `AnimationListItem` of the scene's animation list.  The pointed-to
action (`item.action`) is flattened into `hasAction` plus the action's name and
integer frame range (`int(action.frame_range[0/1])`); when `hasAction` is
false the latter fields are meaningless. -/
structure AnimationListItem : Type where
  name : String
  hasAction : Bool
  actionName : String
  actionFrameStart : Nat
  actionFrameEnd : Nat
  /-- the `include` flag (Lean keyword, hence `incl`) -/
  incl : Bool
  frame_step : Nat
  use_full_range : Bool
  custom_start : Nat
  custom_end : Nat
deriving DecidableEq

/-- Effective start frame of a clip (lines 248-252). -/
def clipStart (item : AnimationListItem) : Nat :=
  if item.use_full_range then item.actionFrameStart else item.custom_start

/-- Effective end frame of a clip (lines 248-253): Python's
`item.custom_end if item.custom_end else int(action.frame_range[1])` —
a zero `custom_end` is falsy and falls back to the action's end. -/
def clipEnd (item : AnimationListItem) : Nat :=
  if item.use_full_range then item.actionFrameEnd
  else if item.custom_end ≠ 0 then item.custom_end else item.actionFrameEnd

/-- The `last_frame` helper (lines 300-301): source frame used for the outgoing
pose of a transition; `item.custom_end or int(...)` is again falsy-on-zero. -/
def last_frame (item : AnimationListItem) : Nat :=
  if item.use_full_range then item.actionFrameEnd
  else if item.custom_end ≠ 0 then item.custom_end else item.actionFrameEnd

/-- The `first_frame` helper (lines 303-304). -/
def first_frame (item : AnimationListItem) : Nat :=
  if item.use_full_range then item.actionFrameStart else item.custom_start

/-- Fixed transition length: `transition_frames = 10` (line 205). -/
def transition_frames : Nat := 10

/-- One entry of `animation_helpers`: a Clip Record `{name, start_idx, end_idx}`. -/
structure AnimHelper : Type where
  name : String
  start_idx : Nat
  end_idx : Nat
deriving DecidableEq

/-- Everything the pipeline accumulates (the parallel lists of
`export_multiple_animations` plus the adjacency map of the BIN serializer). -/
structure MultiOutput : Type where
  animation_helpers : List AnimHelper
  frame_counts : List Nat
  frame_steps : List Nat
  animation_ranges : List (Nat × Nat)
  total_frames : Nat
  /-- the entries of `all_matrix_data`, one flat segment per clip;
  `np.concatenate` is `List.flatten` -/
  all_matrix_data : List (List ℚ)
  /-- the `trans_map` of the BIN serializer: `src -> {dst: transition_name}`,
  as insertion-ordered association lists -/
  trans_map : List (String × List (String × String))
deriving DecidableEq

/-- Per-clip data computed by one iteration of the main loop (lines 242-292)
before it is spliced into the running accumulators. -/
structure ClipData : Type where
  name : String
  frames : List Nat
  step : Nat
  range : Nat × Nat
  segment : List ℚ
deriving DecidableEq

/-- One iteration of the "Normal animations" loop (lines 242-292): range
resolution, the `start_frame > end_frame` check, frame sampling, and matrix
collection with the clip's action active. -/
def processClip (export_all_frames : Bool) (numBones : Nat)
    (transform world : Mat4) (pose : Option String → Nat → Pose numBones)
    (item : AnimationListItem) : Except ExportError ClipData :=
  let start_frame := clipStart item
  let end_frame := clipEnd item
  if start_frame > end_frame then
    .error (.invalidRange item.actionName)
  else
    let frame_step := if export_all_frames then 1 else item.frame_step
    let frames := framesToExport start_frame end_frame item.frame_step export_all_frames
    .ok { name := item.actionName
          frames := frames
          step := frame_step
          range := (start_frame, end_frame)
          segment := frames.flatMap
            (fun f => collectMatrices numBones transform world
              (pose (some item.actionName) f)) }

/-- The frame list baked for a transition clip (lines 356-360): the "step" is
`1 if props.multi_export_all_frames else 1`, i.e. always 1 (a reserved no-op
hook), giving frames `1..10`, with the terminal-frame append guard. -/
def transitionFramesToExport (multi_export_all_frames : Bool) : List Nat :=
  let step := if multi_export_all_frames then 1 else 1
  let fs := pyRange 1 (transition_frames + 1) step
  if fs.getLast? = some transition_frames then fs else fs ++ [transition_frames]

/-- One iteration of the transition loop (lines 308-386) as pure data.  The
fabricated poses (copy/paste plus linear keyframe interpolation, evaluated by
the host) are an opaque function `trPose` of the source action and its last
frame, the destination action and its first frame, and the baked frame. -/
def processTransition (multi_export_all_frames : Bool) (numBones : Nat)
    (transform world : Mat4)
    (trPose : String → Nat → String → Nat → Nat → Pose numBones)
    (src dst : AnimationListItem) : ClipData :=
  let src_last := last_frame src
  let dst_first := first_frame dst
  let tr_name := src.actionName ++ "_To_" ++ dst.actionName
  let frames := transitionFramesToExport multi_export_all_frames
  { name := tr_name
    frames := frames
    step := if multi_export_all_frames then 1 else 1
    range := (1, transition_frames)
    segment := frames.flatMap
      (fun f => collectMatrices numBones transform world
        (trPose src.actionName src_last dst.actionName dst_first f)) }

/-- Splicing one main clip into the accumulators (lines 267-292):
`start_idx = total_frames`, `end_idx = total_frames + num_frames - 1`. -/
def addMainClip (out : MultiOutput) (c : ClipData) : MultiOutput :=
  { animation_helpers := out.animation_helpers
      ++ [⟨c.name, out.total_frames, out.total_frames + c.frames.length - 1⟩]
    frame_counts := out.frame_counts ++ [c.frames.length]
    frame_steps := out.frame_steps ++ [c.step]
    animation_ranges := out.animation_ranges ++ [c.range]
    total_frames := out.total_frames + c.frames.length
    all_matrix_data := out.all_matrix_data ++ [c.segment]
    trans_map := out.trans_map }

/-- Splicing one transition into the accumulators (lines 374-386): the code
hard-codes `end_idx = total_frames + 9` while advancing `total_frames` by
`len(frames_to_export)`. -/
def addTransition (out : MultiOutput) (t : ClipData) : MultiOutput :=
  { animation_helpers := out.animation_helpers
      ++ [⟨t.name, out.total_frames, out.total_frames + 9⟩]
    frame_counts := out.frame_counts ++ [t.frames.length]
    frame_steps := out.frame_steps ++ [t.step]
    animation_ranges := out.animation_ranges ++ [t.range]
    total_frames := out.total_frames + t.frames.length
    all_matrix_data := out.all_matrix_data ++ [t.segment]
    trans_map := out.trans_map }

/-- The transition pair list (lines 297-298):
`[(src, dst) for src in A for dst in A if src != dst]`.  Python compares the
property-group instances by identity, so two list entries are distinct exactly
when their positions differ; skipping position `i` in the inner loop is
`List.eraseIdx i`. -/
def transitions (l : List AnimationListItem) :
    List (AnimationListItem × AnimationListItem) :=
  l.enum.flatMap (fun src => (l.eraseIdx src.1).map (fun dst => (src.2, dst)))

/-- Sequential `mapM` over `Except`, mirroring a Python loop that raises on the
first bad element. -/
def mapExcept {α β : Type} (f : α → Except ExportError β) :
    List α → Except ExportError (List β)
  | [] => .ok []
  | a :: l => do
    let b ← f a
    let r ← mapExcept f l
    .ok (b :: r)

/-- Configuration of one `export_multiple_animations` call: its arguments plus
the pieces of host state it reads. -/
structure MultiConfig : Type where
  unit_name : String
  /-- the `export_all_frames` argument (`props.multi_export_all_frames`) -/
  export_all_frames : Bool
  /-- the `scene.animation_list` collection -/
  animation_list : List AnimationListItem
  /-- the `scene.frame_start` value (an integer in the host) -/
  frame_start : Int
  /-- active action at entry (`arm.animation_data.action`, None-able) -/
  original_action : Option String
  /-- whether `context.active_object` is a valid armature -/
  has_armature : Bool
  /-- whether `bpy.data.filepath` is non-empty -/
  blend_saved : Bool
  export_method : ExportMethod

/-- The `animations_to_export` selection (line 206): included items that point to an action. -/
def included (cfg : MultiConfig) : List AnimationListItem :=
  cfg.animation_list.filter (fun item => item.incl && item.hasAction)

/-- The rest-pose sampling frame (line 231):
`0 if scene.frame_start <= 0 else 1`. -/
def restFrame (cfg : MultiConfig) : Nat :=
  if cfg.frame_start ≤ 0 then 0 else 1

/-- The accumulators right after the rest-pose step (lines 229-237): the rest
pose is collected with the original action still active. -/
def restOut (numBones : Nat) (transform world : Mat4)
    (pose : Option String → Nat → Pose numBones) (cfg : MultiConfig) : MultiOutput :=
  { animation_helpers := [⟨cfg.unit_name ++ "Rest", 0, 0⟩]
    frame_counts := [1]
    frame_steps := [1]
    animation_ranges := [(restFrame cfg, restFrame cfg)]
    total_frames := 1
    all_matrix_data := [collectMatrices numBones transform world
      (pose cfg.original_action (restFrame cfg))]
    trans_map := [] }

/-! ## Python string operations and the adjacency map -/

/-- Whether `pat` is a leading segment of `s`. -/
def leadsWith : List Char → List Char → Bool
  | [], _ => true
  | _ :: _, [] => false
  | p :: ps, c :: cs => p = c && leadsWith ps cs

lemma leadsWith_length_le {pat s : List Char} (h : leadsWith pat s = true) :
    pat.length ≤ s.length := by
  induction pat generalizing s with
  | nil => simp
  | cons p ps ih =>
    cases s with
    | nil => simp [leadsWith] at h
    | cons c cs =>
      simp only [leadsWith, Bool.and_eq_true] at h
      simpa using ih h.2

/-- Python `str.replace(old, new)` over char lists: non-overlapping
replacement, scanning left to right (only used with non-empty `pat`).
Structural recursion on a fuel argument so that the kernel can evaluate it;
every step consumes at least one character, so `fuel = s.length` (see
`pyReplace`) never runs out and the fuel-exhausted branch is unreachable. -/
def pyReplaceFuel (pat rep : List Char) : Nat → List Char → List Char
  | _, [] => []
  | 0, s => s
  | fuel + 1, c :: rest =>
    if pat ≠ [] ∧ leadsWith pat (c :: rest) = true then
      rep ++ pyReplaceFuel pat rep fuel ((c :: rest).drop pat.length)
    else
      c :: pyReplaceFuel pat rep fuel rest

/-- Python `str.replace(old, new)` over char lists. -/
def pyReplace (s pat rep : List Char) : List Char :=
  pyReplaceFuel pat rep s.length s

/-- Python `str.split(sep)` over char lists for a non-empty separator:
non-overlapping, left to right; `"".split(sep) == [""]`.  Fuel as in
`pyReplaceFuel`. -/
def pySplitFuel (sep : List Char) : Nat → List Char → List (List Char)
  | _, [] => [[]]
  | 0, s => [s]
  | fuel + 1, c :: rest =>
    if sep ≠ [] ∧ leadsWith sep (c :: rest) = true then
      [] :: pySplitFuel sep fuel ((c :: rest).drop sep.length)
    else
      match pySplitFuel sep fuel rest with
      | [] => [[c]]
      | hpart :: t => (c :: hpart) :: t

/-- Python `str.split(sep)` over char lists. -/
def pySplit (sep : List Char) (s : List Char) : List (List Char) :=
  pySplitFuel sep s.length s

/-- Python `str.replace` on `String`s. -/
def pyReplaceS (s pat rep : String) : String :=
  String.mk (pyReplace s.toList pat.toList rep.toList)

/-- Python `str.split` on `String`s. -/
def pySplitS (s sep : String) : List String :=
  (pySplit sep.toList s.toList).map String.mk

/-- Python's `"_To_" in name` test (substring containment): with a non-empty
pattern, `s.split(pat)` has more than one part iff `pat` occurs in `s`. -/
def containsToken (s tok : String) : Bool :=
  (pySplitS s tok).length != 1

/-- Python dict update: overwrite the value at an existing key (keeping its
position, like a Python dict), else append. -/
def updateAssoc (m : List (String × String)) (k v : String) :
    List (String × String) :=
  match m with
  | [] => [(k, v)]
  | (k0, v0) :: rest =>
    if k0 = k then (k, v) :: rest else (k0, v0) :: updateAssoc rest k v

/-- The `setdefault`-insert `trans_map.setdefault(src, ...)[dst] = name` of line 449. -/
def setdefaultInsert (m : List (String × List (String × String)))
    (src dst v : String) : List (String × List (String × String)) :=
  match m with
  | [] => [(src, [(dst, v)])]
  | (k0, inner) :: rest =>
    if k0 = src then (k0, updateAssoc inner dst v) :: rest
    else (k0, inner) :: setdefaultInsert rest src dst v

/-- First-match association lookup (Python `dict` access). -/
def lookupAssoc {β : Type} (m : List (String × β)) (k : String) : Option β :=
  match m with
  | [] => none
  | (k0, v) :: rest => if k0 = k then some v else lookupAssoc rest k

/-- Lookup of `trans_map[src][dst]`. -/
def getTrans (m : List (String × List (String × String))) (src dst : String) :
    Option String :=
  match lookupAssoc m src with
  | some inner => lookupAssoc inner dst
  | none => none

/-- The `src_dst` parsing of one transition helper (line 445):
`tr['name'].replace(f"{unit_name}_", "").split("_To_")`. -/
def srcDstParts (unit_name : String) (trName : String) : List String :=
  pySplitS (pyReplaceS trName (unit_name ++ "_") "") "_To_"

/-- One iteration of the adjacency-map loop (lines 444-449): parse the
transition helper's name, skip it (`continue`) when the parse does not yield
exactly two parts, else `setdefault`-insert. -/
def transMapStep (unit_name : String)
    (m : List (String × List (String × String))) (tr : AnimHelper) :
    List (String × List (String × String)) :=
  match srcDstParts unit_name tr.name with
  | [src, dst] => setdefaultInsert m src dst tr.name
  | _ => m

/-- Adjacency-map construction of the BIN serializer (lines 418-449): filter
the helpers whose name contains `"_To_"` (line 419), then fold the parse/insert
step over them. -/
def buildTransMap (unit_name : String) (helpers : List AnimHelper) :
    List (String × List (String × String)) :=
  (helpers.filter (fun a => containsToken a.name "_To_")).foldl
    (transMapStep unit_name) []

/-! ## The multi-export core (pure data view) -/

/-- Pure-data model of `export_multiple_animations` (lines 196-518): validation,
rest pose, main clips, transitions, adjacency map, and the serializer-level
failure checks.  File writing and the PROPERTY key/value stores are external
sinks; an `.ok` result is exactly "all buffers assembled and handed to the
sink", an `.error` is the raise reaching the top-level handler with no output
written. -/
def export_multiple_animations_core (numBones : Nat) (transform world : Mat4)
    (pose : Option String → Nat → Pose numBones)
    (trPose : String → Nat → String → Nat → Nat → Pose numBones)
    (cfg : MultiConfig) : Except ExportError MultiOutput :=
  if cfg.has_armature = false then .error .missingArmature
  else if (included cfg).isEmpty then .error .noClipsSelected
  else do
    let clips ← mapExcept
      (processClip cfg.export_all_frames numBones transform world pose)
      (included cfg)
    let out1 := clips.foldl addMainClip (restOut numBones transform world pose cfg)
    let trs := (transitions (included cfg)).map
      (fun p => processTransition cfg.export_all_frames numBones transform world
        trPose p.1 p.2)
    let out2 := trs.foldl addTransition out1
    match cfg.export_method with
    | .BIN =>
      if cfg.blend_saved = false then .error .unsavedDocument
      else .ok { out2 with trans_map := buildTransMap cfg.unit_name out2.animation_helpers }
    | .PROPERTY => .ok out2

/-! ## Reasoning infrastructure for the pipeline -/

lemma mapExcept_nil {α β : Type} (f : α → Except ExportError β) :
    mapExcept f [] = .ok [] := rfl

lemma mapExcept_cons {α β : Type} (f : α → Except ExportError β) (a : α) (l : List α) :
    mapExcept f (a :: l)
      = (f a) >>= fun b => (mapExcept f l) >>= fun r => .ok (b :: r) := rfl

lemma mapExcept_cons_ok {α β : Type} (f : α → Except ExportError β)
    (a : α) (l : List α) (b : β) (r : List β)
    (ha : f a = .ok b) (hl : mapExcept f l = .ok r) :
    mapExcept f (a :: l) = .ok (b :: r) := by
  unfold mapExcept
  rw [ha, hl]
  rfl

lemma mapExcept_ok_forall₂ {α β : Type} (f : α → Except ExportError β) :
    ∀ {l : List α} {r : List β}, mapExcept f l = .ok r →
      List.Forall₂ (fun a b => f a = .ok b) l r := by
  intro l
  induction l with
  | nil =>
    intro r h
    unfold mapExcept at h
    cases h
    exact List.Forall₂.nil
  | cons a l ih =>
    intro r h
    unfold mapExcept at h
    cases hfa : f a with
    | error e =>
      rw [hfa] at h
      exact absurd h (by simp [Bind.bind, Except.bind])
    | ok b =>
      rw [hfa] at h
      cases hml : mapExcept f l with
      | error e =>
        rw [hml] at h
        exact absurd h (by simp [Bind.bind, Except.bind])
      | ok r' =>
        rw [hml] at h
        simp only [Bind.bind, Except.bind] at h
        cases h
        exact List.Forall₂.cons hfa (ih hml)

lemma forall₂_concat {α β : Type} {R : α → β → Prop} {l₁ : List α}
    {l₂ : List β} {a : α} {b : β} (h : List.Forall₂ R l₁ l₂) (hab : R a b) :
    List.Forall₂ R (l₁ ++ [a]) (l₂ ++ [b]) := by
  induction h with
  | nil => simpa using List.Forall₂.cons hab List.Forall₂.nil
  | cons hxy _ ih => exact List.Forall₂.cons hxy ih

lemma forall₂_fun_eq_map {α β : Type} (f : α → β) :
    ∀ {l₁ : List α} {l₂ : List β},
      List.Forall₂ (fun a b => f a = b) l₁ l₂ → l₁.map f = l₂ := by
  intro l₁ l₂ h
  induction h with
  | nil => rfl
  | cons hxy _ ih => simp [ih, hxy]

lemma map_const_of_forall {α β : Type} (f : α → β) (c : β) :
    ∀ (l : List α), (∀ x ∈ l, f x = c) → l.map f = List.replicate l.length c := by
  intro l h
  induction l with
  | nil => rfl
  | cons x xs ih =>
    simp only [List.map_cons, List.length_cons, List.replicate_succ]
    rw [h x (List.mem_cons_self x xs), ih (fun y hy => h y (List.mem_cons_of_mem x hy))]

lemma foldl_preserve {α β : Type} {P : α → Prop} {Q : β → Prop} (f : α → β → α)
    (hf : ∀ a b, P a → Q b → P (f a b)) :
    ∀ (l : List β) (a : α), P a → (∀ b ∈ l, Q b) → P (l.foldl f a) := by
  intro l
  induction l with
  | nil => intro a ha _; exact ha
  | cons b bs ih =>
    intro a ha hq
    exact ih (f a b) (hf a b ha (hq b (List.mem_cons_self b bs)))
      (fun x hx => hq x (List.mem_cons_of_mem b hx))

/-! ### Field-wise characterization of the accumulator folds -/

lemma foldl_addMainClip_frame_counts (clips : List ClipData) (out : MultiOutput) :
    (clips.foldl addMainClip out).frame_counts
      = out.frame_counts ++ clips.map (fun c => c.frames.length) := by
  induction clips generalizing out with
  | nil => simp
  | cons c cs ih =>
    rw [List.foldl_cons, ih]
    simp [addMainClip]

lemma foldl_addMainClip_frame_steps (clips : List ClipData) (out : MultiOutput) :
    (clips.foldl addMainClip out).frame_steps
      = out.frame_steps ++ clips.map (fun c => c.step) := by
  induction clips generalizing out with
  | nil => simp
  | cons c cs ih =>
    rw [List.foldl_cons, ih]
    simp [addMainClip]

lemma foldl_addMainClip_animation_ranges (clips : List ClipData) (out : MultiOutput) :
    (clips.foldl addMainClip out).animation_ranges
      = out.animation_ranges ++ clips.map (fun c => c.range) := by
  induction clips generalizing out with
  | nil => simp
  | cons c cs ih =>
    rw [List.foldl_cons, ih]
    simp [addMainClip]

lemma foldl_addMainClip_all_matrix_data (clips : List ClipData) (out : MultiOutput) :
    (clips.foldl addMainClip out).all_matrix_data
      = out.all_matrix_data ++ clips.map (fun c => c.segment) := by
  induction clips generalizing out with
  | nil => simp
  | cons c cs ih =>
    rw [List.foldl_cons, ih]
    simp [addMainClip]

lemma foldl_addMainClip_helpers (clips : List ClipData) (out : MultiOutput) :
    ∃ t, (clips.foldl addMainClip out).animation_helpers
        = out.animation_helpers ++ t ∧ t.length = clips.length := by
  induction clips generalizing out with
  | nil => exact ⟨[], by simp⟩
  | cons c cs ih =>
    obtain ⟨t, ht, hlen⟩ := ih (addMainClip out c)
    refine ⟨⟨c.name, out.total_frames, out.total_frames + c.frames.length - 1⟩ :: t, ?_, by simp [hlen]⟩
    rw [List.foldl_cons, ht]
    simp [addMainClip]

lemma foldl_addTransition_frame_counts (trs : List ClipData) (out : MultiOutput) :
    (trs.foldl addTransition out).frame_counts
      = out.frame_counts ++ trs.map (fun t => t.frames.length) := by
  induction trs generalizing out with
  | nil => simp
  | cons t ts ih =>
    rw [List.foldl_cons, ih]
    simp [addTransition]

lemma foldl_addTransition_frame_steps (trs : List ClipData) (out : MultiOutput) :
    (trs.foldl addTransition out).frame_steps
      = out.frame_steps ++ trs.map (fun t => t.step) := by
  induction trs generalizing out with
  | nil => simp
  | cons t ts ih =>
    rw [List.foldl_cons, ih]
    simp [addTransition]

lemma foldl_addTransition_animation_ranges (trs : List ClipData) (out : MultiOutput) :
    (trs.foldl addTransition out).animation_ranges
      = out.animation_ranges ++ trs.map (fun t => t.range) := by
  induction trs generalizing out with
  | nil => simp
  | cons t ts ih =>
    rw [List.foldl_cons, ih]
    simp [addTransition]

lemma foldl_addTransition_all_matrix_data (trs : List ClipData) (out : MultiOutput) :
    (trs.foldl addTransition out).all_matrix_data
      = out.all_matrix_data ++ trs.map (fun t => t.segment) := by
  induction trs generalizing out with
  | nil => simp
  | cons t ts ih =>
    rw [List.foldl_cons, ih]
    simp [addTransition]

lemma foldl_addTransition_helpers (trs : List ClipData) (out : MultiOutput) :
    ∃ t, (trs.foldl addTransition out).animation_helpers
        = out.animation_helpers ++ t ∧ t.length = trs.length := by
  induction trs generalizing out with
  | nil => exact ⟨[], by simp⟩
  | cons c cs ih =>
    obtain ⟨t, ht, hlen⟩ := ih (addTransition out c)
    refine ⟨⟨c.name, out.total_frames, out.total_frames + 9⟩ :: t, ?_, by simp [hlen]⟩
    rw [List.foldl_cons, ht]
    simp [addTransition]

/-! ### Facts about clip processing -/

lemma framesToExport_pos (start_frame end_frame frame_step : Nat)
    (export_all_frames : Bool) (hse : start_frame ≤ end_frame) :
    1 ≤ (framesToExport start_frame end_frame frame_step export_all_frames).length := by
  unfold framesToExport
  cases export_all_frames with
  | true =>
    rw [if_pos rfl]
    have := pyRange_ne_nil start_frame end_frame 1 (le_refl 1) hse
    cases hl : pyRange start_frame (end_frame + 1) 1 with
    | nil => exact absurd hl this
    | cons _ _ => simp
  | false =>
    rw [if_neg (by simp)]
    by_cases h : (pyRange start_frame (end_frame + 1) frame_step).getLast?
        = some end_frame
    · rw [if_pos h]
      have : (pyRange start_frame (end_frame + 1) frame_step).getLast?.isSome := by
        rw [h]; rfl
      have hne := List.getLast?_isSome.mp this
      cases hl : pyRange start_frame (end_frame + 1) frame_step with
      | nil => exact absurd hl hne
      | cons _ _ => simp
    · rw [if_neg h]
      simp

lemma processClip_ok (export_all_frames : Bool) (numBones : Nat)
    (transform world : Mat4) (pose : Option String → Nat → Pose numBones)
    (item : AnimationListItem) (c : ClipData)
    (h : processClip export_all_frames numBones transform world pose item = .ok c) :
    c.name = item.actionName ∧
    c.frames = framesToExport (clipStart item) (clipEnd item) item.frame_step
      export_all_frames ∧
    c.step = (if export_all_frames then 1 else item.frame_step) ∧
    c.range = (clipStart item, clipEnd item) ∧
    c.segment = c.frames.flatMap
      (fun f => collectMatrices numBones transform world
        (pose (some item.actionName) f)) ∧
    clipStart item ≤ clipEnd item := by
  unfold processClip at h
  by_cases hse : clipStart item > clipEnd item
  · rw [if_pos hse] at h
    exact absurd h (by simp)
  · rw [if_neg hse] at h
    cases h
    refine ⟨rfl, rfl, rfl, rfl, rfl, by omega⟩

lemma processClip_error (export_all_frames : Bool) (numBones : Nat)
    (transform world : Mat4) (pose : Option String → Nat → Pose numBones)
    (item : AnimationListItem) (e : ExportError)
    (h : processClip export_all_frames numBones transform world pose item = .error e) :
    e = .invalidRange item.actionName ∧ clipEnd item < clipStart item := by
  unfold processClip at h
  by_cases hse : clipStart item > clipEnd item
  · rw [if_pos hse] at h
    cases h
    exact ⟨rfl, hse⟩
  · rw [if_neg hse] at h
    exact absurd h (by simp)

lemma processClip_frames_pos (export_all_frames : Bool) (numBones : Nat)
    (transform world : Mat4) (pose : Option String → Nat → Pose numBones)
    (item : AnimationListItem) (c : ClipData)
    (h : processClip export_all_frames numBones transform world pose item = .ok c) :
    1 ≤ c.frames.length := by
  obtain ⟨-, hfr, -, -, -, hse⟩ :=
    processClip_ok export_all_frames numBones transform world pose item c h
  rw [hfr]
  exact framesToExport_pos _ _ _ _ hse

lemma processClip_segment_length (export_all_frames : Bool) (numBones : Nat)
    (transform world : Mat4) (pose : Option String → Nat → Pose numBones)
    (item : AnimationListItem) (c : ClipData)
    (h : processClip export_all_frames numBones transform world pose item = .ok c) :
    c.segment.length = c.frames.length * (numBones * 16) := by
  obtain ⟨-, -, -, -, hseg, -⟩ :=
    processClip_ok export_all_frames numBones transform world pose item c h
  rw [hseg]
  exact length_flatMap_const _ _ _ (fun f _ => collectMatrices_length _ _ _ _)

lemma transitionFramesToExport_length (multi_export_all_frames : Bool) :
    (transitionFramesToExport multi_export_all_frames).length = 10 := by
  cases multi_export_all_frames <;> rfl

lemma processTransition_frames_length (multi_export_all_frames : Bool)
    (numBones : Nat) (transform world : Mat4)
    (trPose : String → Nat → String → Nat → Nat → Pose numBones)
    (src dst : AnimationListItem) :
    (processTransition multi_export_all_frames numBones transform world trPose
      src dst).frames.length = 10 :=
  transitionFramesToExport_length multi_export_all_frames

lemma processTransition_segment_length (multi_export_all_frames : Bool)
    (numBones : Nat) (transform world : Mat4)
    (trPose : String → Nat → String → Nat → Nat → Pose numBones)
    (src dst : AnimationListItem) :
    (processTransition multi_export_all_frames numBones transform world trPose
      src dst).segment.length = 10 * (numBones * 16) := by
  unfold processTransition
  have h := length_flatMap_const (transitionFramesToExport multi_export_all_frames)
    (fun f => collectMatrices numBones transform world
      (trPose src.actionName (last_frame src) dst.actionName (first_frame dst) f))
    (numBones * 16) (fun f _ => collectMatrices_length _ _ _ _)
  simpa [transitionFramesToExport_length] using h

lemma processTransition_range (multi_export_all_frames : Bool)
    (numBones : Nat) (transform world : Mat4)
    (trPose : String → Nat → String → Nat → Nat → Pose numBones)
    (src dst : AnimationListItem) :
    (processTransition multi_export_all_frames numBones transform world trPose
      src dst).range = (1, transition_frames) := rfl

lemma transitions_length (l : List AnimationListItem) :
    (transitions l).length = l.length * (l.length - 1) := by
  unfold transitions
  rw [length_flatMap_const _ _ (l.length - 1), List.enum_length]
  intro x hx
  rw [List.length_map, List.length_eraseIdx]
  rw [if_pos (List.fst_lt_of_mem_enum hx)]

/-! ### The partition / length invariant of the accumulators -/

/-- Invariant maintained by the accumulator through the rest-pose, main-clip
and transition phases: the Clip Records chain with no gaps, the running
`total_frames` sits one past the last record, every record spans exactly its
clip's frame count (all counts positive), `total_frames` is the sum of the
counts, and every buffer segment holds `count * numBones * 16` floats. -/
def RecordsInv (numBones : Nat) (out : MultiOutput) : Prop :=
  List.Chain' (fun a b => a.end_idx + 1 = b.start_idx) out.animation_helpers ∧
  (∀ h, out.animation_helpers.getLast? = some h → h.end_idx + 1 = out.total_frames) ∧
  List.Forall₂ (fun (h : AnimHelper) (cnt : Nat) =>
      h.end_idx + 1 = h.start_idx + cnt ∧ 1 ≤ cnt)
    out.animation_helpers out.frame_counts ∧
  out.total_frames = out.frame_counts.sum ∧
  List.Forall₂ (fun (seg : List ℚ) (cnt : Nat) => seg.length = cnt * (numBones * 16))
    out.all_matrix_data out.frame_counts

lemma restOut_recordsInv (numBones : Nat) (transform world : Mat4)
    (pose : Option String → Nat → Pose numBones) (cfg : MultiConfig) :
    RecordsInv numBones (restOut numBones transform world pose cfg) := by
  refine ⟨List.chain'_singleton _, ?_, ?_, by simp [restOut], ?_⟩
  · intro h hh
    simp only [restOut, List.getLast?_singleton, Option.some_inj] at hh
    subst hh
    rfl
  · exact List.Forall₂.cons ⟨rfl, le_refl 1⟩ List.Forall₂.nil
  · exact List.Forall₂.cons (by simpa using collectMatrices_length numBones transform world _)
      List.Forall₂.nil

lemma addMainClip_recordsInv (numBones : Nat) (out : MultiOutput) (c : ClipData)
    (hc : 1 ≤ c.frames.length ∧ c.segment.length = c.frames.length * (numBones * 16))
    (hinv : RecordsInv numBones out) : RecordsInv numBones (addMainClip out c) := by
  obtain ⟨hchain, hlast, hcnts, htot, hsegs⟩ := hinv
  obtain ⟨hlen, hseg⟩ := hc
  refine ⟨?_, ?_, ?_, ?_, ?_⟩
  · rw [addMainClip, List.chain'_append]
    refine ⟨hchain, List.chain'_singleton _, ?_⟩
    intro x hx y hy
    simp only [List.head?_cons, Option.mem_def, Option.some_inj] at hy
    subst hy
    exact hlast x hx
  · intro h hh
    simp only [addMainClip, List.getLast?_concat, Option.some_inj] at hh
    subst hh
    simp only [addMainClip]
    omega
  · exact forall₂_concat hcnts (by simp only []; constructor <;> omega)
  · simp only [addMainClip, List.sum_append, List.sum_cons, List.sum_nil]
    omega
  · exact forall₂_concat hsegs hseg

lemma addTransition_recordsInv (numBones : Nat) (out : MultiOutput) (t : ClipData)
    (ht : t.frames.length = 10 ∧ t.segment.length = 10 * (numBones * 16))
    (hinv : RecordsInv numBones out) : RecordsInv numBones (addTransition out t) := by
  obtain ⟨hchain, hlast, hcnts, htot, hsegs⟩ := hinv
  obtain ⟨hlen, hseg⟩ := ht
  refine ⟨?_, ?_, ?_, ?_, ?_⟩
  · rw [addTransition, List.chain'_append]
    refine ⟨hchain, List.chain'_singleton _, ?_⟩
    intro x hx y hy
    simp only [List.head?_cons, Option.mem_def, Option.some_inj] at hy
    subst hy
    exact hlast x hx
  · intro h hh
    simp only [addTransition, List.getLast?_concat, Option.some_inj] at hh
    subst hh
    simp only [addTransition]
    omega
  · exact forall₂_concat hcnts (by simp only []; constructor <;> omega)
  · simp only [addTransition, List.sum_append, List.sum_cons, List.sum_nil]
    omega
  · refine forall₂_concat hsegs ?_
    rw [hseg, hlen]

/-- Destructuring a successful run of the multi-export core: selection was
non-empty, every clip processed successfully, and the output is the result of
the three accumulation phases (with the adjacency map installed by the BIN
serializer, or left empty). -/
lemma core_ok_spec (numBones : Nat) (transform world : Mat4)
    (pose : Option String → Nat → Pose numBones)
    (trPose : String → Nat → String → Nat → Nat → Pose numBones)
    (cfg : MultiConfig) (out : MultiOutput)
    (hout : export_multiple_animations_core numBones transform world pose trPose cfg
      = .ok out) :
    ∃ clips tm,
      mapExcept (processClip cfg.export_all_frames numBones transform world pose)
        (included cfg) = .ok clips ∧
      (included cfg).isEmpty = false ∧
      out = { ((transitions (included cfg)).map
                (fun p => processTransition cfg.export_all_frames numBones
                  transform world trPose p.1 p.2)).foldl addTransition
              (clips.foldl addMainClip (restOut numBones transform world pose cfg))
              with trans_map := tm } := by
  unfold export_multiple_animations_core at hout
  by_cases h1 : cfg.has_armature = false
  · rw [if_pos h1] at hout
    exact absurd hout (by simp)
  · rw [if_neg h1] at hout
    by_cases h2 : (included cfg).isEmpty
    · rw [if_pos h2] at hout
      exact absurd hout (by simp)
    · rw [if_neg h2] at hout
      cases hm : mapExcept
          (processClip cfg.export_all_frames numBones transform world pose)
          (included cfg) with
      | error e =>
        rw [hm] at hout
        exact absurd hout (by simp [Bind.bind, Except.bind])
      | ok clips =>
        rw [hm] at hout
        simp only [Bind.bind, Except.bind] at hout
        refine ⟨clips, ?_⟩
        cases hem : cfg.export_method with
        | BIN =>
          rw [hem] at hout
          by_cases h3 : cfg.blend_saved = false
          · rw [if_pos h3] at hout
            exact absurd hout (by simp)
          · rw [if_neg h3] at hout
            cases hout
            exact ⟨_, rfl, by simpa using h2, rfl⟩
        | PROPERTY =>
          rw [hem] at hout
          cases hout
          exact ⟨_, rfl, by simpa using h2, rfl⟩

lemma forall₂_mem_right {α β : Type} {R : α → β → Prop} :
    ∀ {l : List α} {r : List β}, List.Forall₂ R l r →
      ∀ b ∈ r, ∃ a ∈ l, R a b := by
  intro l r h
  induction h with
  | nil => intro b hb; simp at hb
  | cons hxy hrest ih =>
    intro b hb
    rcases List.mem_cons.mp hb with hb | hb
    · subst hb
      exact ⟨_, List.mem_cons_self _ _, hxy⟩
    · obtain ⟨a, ha, hr⟩ := ih b hb
      exact ⟨a, List.mem_cons_of_mem _ ha, hr⟩

lemma forall₂_map_eq {α β γ : Type} (f : α → γ) (g : β → γ) :
    ∀ {l₁ : List α} {l₂ : List β},
      List.Forall₂ (fun a b => f a = g b) l₁ l₂ → l₁.map f = l₂.map g := by
  intro l₁ l₂ h
  induction h with
  | nil => rfl
  | cons hxy _ ih => simp only [List.map_cons, ih, hxy]

lemma sum_map_mul_const (l : List Nat) (k : Nat) :
    (l.map (fun x => x * k)).sum = l.sum * k := by
  induction l with
  | nil => simp
  | cons x xs ih =>
    simp only [List.map_cons, List.sum_cons, ih]
    ring

/-- The final accumulator of a successful multi-export run satisfies the
records invariant. -/
lemma core_ok_recordsInv (numBones : Nat) (transform world : Mat4)
    (pose : Option String → Nat → Pose numBones)
    (trPose : String → Nat → String → Nat → Nat → Pose numBones)
    (cfg : MultiConfig) (out : MultiOutput)
    (hout : export_multiple_animations_core numBones transform world pose trPose cfg
      = .ok out) : RecordsInv numBones out := by
  obtain ⟨clips, tm, hm, hne, hrep⟩ :=
    core_ok_spec numBones transform world pose trPose cfg out hout
  have hf₂ := mapExcept_ok_forall₂ _ hm
  have hstep1 : ∀ (o : MultiOutput) (c : ClipData), RecordsInv numBones o →
      (1 ≤ c.frames.length ∧ c.segment.length = c.frames.length * (numBones * 16)) →
      RecordsInv numBones (addMainClip o c) :=
    fun o c ho hq => addMainClip_recordsInv numBones o c hq ho
  have hq1 : ∀ c ∈ clips,
      1 ≤ c.frames.length ∧ c.segment.length = c.frames.length * (numBones * 16) := by
    intro c hc
    obtain ⟨item, -, hitem⟩ := forall₂_mem_right hf₂ c hc
    exact ⟨processClip_frames_pos _ _ _ _ _ _ _ hitem,
      processClip_segment_length _ _ _ _ _ _ _ hitem⟩
  have hmain : RecordsInv numBones
      (clips.foldl addMainClip (restOut numBones transform world pose cfg)) :=
    foldl_preserve addMainClip hstep1 clips _
      (restOut_recordsInv numBones transform world pose cfg) hq1
  have hstep2 : ∀ (o : MultiOutput) (t : ClipData), RecordsInv numBones o →
      (t.frames.length = 10 ∧ t.segment.length = 10 * (numBones * 16)) →
      RecordsInv numBones (addTransition o t) :=
    fun o t ho hq => addTransition_recordsInv numBones o t hq ho
  have hq2 : ∀ t ∈ (transitions (included cfg)).map
      (fun p => processTransition cfg.export_all_frames numBones transform world
        trPose p.1 p.2),
      t.frames.length = 10 ∧ t.segment.length = 10 * (numBones * 16) := by
    intro t ht
    obtain ⟨p, -, hp⟩ := List.mem_map.mp ht
    subst hp
    exact ⟨processTransition_frames_length _ _ _ _ _ _ _,
      processTransition_segment_length _ _ _ _ _ _ _⟩
  have htr : RecordsInv numBones
      (((transitions (included cfg)).map
          (fun p => processTransition cfg.export_all_frames numBones transform world
            trPose p.1 p.2)).foldl addTransition
        (clips.foldl addMainClip (restOut numBones transform world pose cfg))) :=
    foldl_preserve addTransition hstep2 _ _ hmain hq2
  subst hrep
  obtain ⟨h1, h2, h3, h4, h5⟩ := htr
  exact ⟨h1, h2, h3, h4, h5⟩

/-- C3: in every successful multi-export, the Clip Records' inclusive index
ranges partition the combined Matrix Buffer in creation order with no gaps and
no overlap: the first record starts at index 0, each record's `end_idx + 1` is
the next record's `start_idx`, and the descriptor's `totalFrames` equals the
sum over all Clip Records of `end_idx - start_idx + 1`. -/
theorem C3_partition (numBones : Nat) (transform world : Mat4)
    (pose : Option String → Nat → Pose numBones)
    (trPose : String → Nat → String → Nat → Nat → Pose numBones)
    (cfg : MultiConfig) (out : MultiOutput)
    (hout : export_multiple_animations_core numBones transform world pose trPose cfg
      = .ok out) :
    (∀ h0, out.animation_helpers.head? = some h0 → h0.start_idx = 0) ∧
    List.Chain' (fun a b => a.end_idx + 1 = b.start_idx) out.animation_helpers ∧
    out.total_frames
      = (out.animation_helpers.map (fun h => h.end_idx - h.start_idx + 1)).sum := by
  have hinv := core_ok_recordsInv numBones transform world pose trPose cfg out hout
  obtain ⟨hchain, -, hcnts, htot, -⟩ := hinv
  refine ⟨?_, hchain, ?_⟩
  · obtain ⟨clips, tm, hm, hne, hrep⟩ :=
      core_ok_spec numBones transform world pose trPose cfg out hout
    subst hrep
    obtain ⟨t1, ht1, -⟩ := foldl_addMainClip_helpers clips
      (restOut numBones transform world pose cfg)
    obtain ⟨t2, ht2, -⟩ := foldl_addTransition_helpers
      ((transitions (included cfg)).map
        (fun p => processTransition cfg.export_all_frames numBones transform world
          trPose p.1 p.2))
      (clips.foldl addMainClip (restOut numBones transform world pose cfg))
    intro h0 hh0
    rw [ht2, ht1] at hh0
    simp only [restOut, List.cons_append, List.nil_append, List.head?_cons,
      Option.some_inj] at hh0
    subst hh0
    rfl
  · have hmapeq : out.animation_helpers.map (fun h => h.end_idx - h.start_idx + 1)
        = out.frame_counts.map id := by
      refine forall₂_map_eq _ _ (List.Forall₂.imp ?_ hcnts)
      intro a b hab
      simp only [id]
      omega
    rw [hmapeq, List.map_id, htot]

/-- C2: in every successful multi-export with `n` included clips, exactly one
transition is synthesized per ordered pair of distinct included clips —
`n * (n-1)` of them, no skip policy — each contributing exactly one Clip
Record whose frame count is 10 and a buffer segment of `10 * numBones * 16`
floats, so the record total is `1 + n + n*(n-1)`. -/
theorem C2_transition_pairs (numBones : Nat) (transform world : Mat4)
    (pose : Option String → Nat → Pose numBones)
    (trPose : String → Nat → String → Nat → Nat → Pose numBones)
    (cfg : MultiConfig) (out : MultiOutput)
    (hout : export_multiple_animations_core numBones transform world pose trPose cfg
      = .ok out) :
    out.animation_helpers.length
      = 1 + (included cfg).length
          + (included cfg).length * ((included cfg).length - 1) ∧
    out.frame_counts.length
      = 1 + (included cfg).length
          + (included cfg).length * ((included cfg).length - 1) ∧
    out.frame_counts.drop (1 + (included cfg).length)
      = List.replicate ((included cfg).length * ((included cfg).length - 1)) 10 ∧
    (out.all_matrix_data.drop (1 + (included cfg).length)).map List.length
      = List.replicate ((included cfg).length * ((included cfg).length - 1))
          (10 * (numBones * 16)) := by
  obtain ⟨clips, tm, hm, hne, hrep⟩ :=
    core_ok_spec numBones transform world pose trPose cfg out hout
  have hclen : (included cfg).length = clips.length :=
    (mapExcept_ok_forall₂ _ hm).length_eq
  set trs := (transitions (included cfg)).map
    (fun p => processTransition cfg.export_all_frames numBones transform world
      trPose p.1 p.2) with htrs
  have htrlen : trs.length = (included cfg).length * ((included cfg).length - 1) := by
    rw [htrs, List.length_map, transitions_length]
  have htr10 : ∀ t ∈ trs, t.frames.length = 10 := by
    intro t ht
    obtain ⟨p, -, hp⟩ := List.mem_map.mp ht
    subst hp
    exact processTransition_frames_length _ _ _ _ _ _ _
  have htrseg : ∀ t ∈ trs, t.segment.length = 10 * (numBones * 16) := by
    intro t ht
    obtain ⟨p, -, hp⟩ := List.mem_map.mp ht
    subst hp
    exact processTransition_segment_length _ _ _ _ _ _ _
  subst hrep
  refine ⟨?_, ?_, ?_, ?_⟩
  · obtain ⟨t1, ht1, hl1⟩ := foldl_addMainClip_helpers clips
      (restOut numBones transform world pose cfg)
    obtain ⟨t2, ht2, hl2⟩ := foldl_addTransition_helpers trs
      (clips.foldl addMainClip (restOut numBones transform world pose cfg))
    rw [ht2, ht1]
    simp only [List.length_append, restOut, List.length_singleton]
    omega
  · simp only [foldl_addTransition_frame_counts, foldl_addMainClip_frame_counts,
      restOut, List.length_append, List.length_map, List.length_singleton]
    omega
  · rw [foldl_addTransition_frame_counts, foldl_addMainClip_frame_counts]
    have hlen1 : 1 + (included cfg).length
        = ((restOut numBones transform world pose cfg).frame_counts
            ++ clips.map (fun c => c.frames.length)).length := by
      simp only [restOut, List.length_append, List.length_map, List.length_singleton]
      omega
    rw [hlen1, List.drop_left]
    rw [← htrlen]
    exact map_const_of_forall _ _ trs htr10
  · rw [foldl_addTransition_all_matrix_data, foldl_addMainClip_all_matrix_data]
    have hlen1 : 1 + (included cfg).length
        = ((restOut numBones transform world pose cfg).all_matrix_data
            ++ clips.map (fun c => c.segment)).length := by
      simp only [restOut, List.length_append, List.length_map, List.length_singleton]
      omega
    rw [hlen1, List.drop_left, List.map_map]
    rw [← htrlen]
    exact map_const_of_forall _ _ trs htrseg

/-- C7: in every successful multi-export, each clip's Matrix Buffer segment
holds exactly `frame_count * numBones * 16` floats, and the emitted combined
payload (`np.concatenate(all_matrix_data)`) holds exactly
`total_frames * numBones * 16` floats. -/
theorem C7_buffer_lengths (numBones : Nat) (transform world : Mat4)
    (pose : Option String → Nat → Pose numBones)
    (trPose : String → Nat → String → Nat → Nat → Pose numBones)
    (cfg : MultiConfig) (out : MultiOutput)
    (hout : export_multiple_animations_core numBones transform world pose trPose cfg
      = .ok out) :
    List.Forall₂ (fun (seg : List ℚ) (cnt : Nat) => seg.length = cnt * numBones * 16)
      out.all_matrix_data out.frame_counts ∧
    out.all_matrix_data.flatten.length = out.total_frames * numBones * 16 := by
  have hinv := core_ok_recordsInv numBones transform world pose trPose cfg out hout
  obtain ⟨-, -, -, htot, hsegs⟩ := hinv
  constructor
  · refine List.Forall₂.imp ?_ hsegs
    intro a b hab
    rw [hab]
    ring
  · rw [List.length_flatten]
    have hmapeq : out.all_matrix_data.map List.length
        = out.frame_counts.map (fun cnt => cnt * (numBones * 16)) :=
      forall₂_map_eq _ _ hsegs
    rw [hmapeq, sum_map_mul_const, ← htot]
    ring

/-- C9: in every successful multi-export, the rest-pose Clip Record is the
first record, occupies exactly index range `[0, 0]` with frame count 1 and
step 1, and is sampled (with the original action still active) at scene frame
0 when the scene's start frame is ≤ 0, otherwise at scene frame 1. -/
theorem C9_rest_record (numBones : Nat) (transform world : Mat4)
    (pose : Option String → Nat → Pose numBones)
    (trPose : String → Nat → String → Nat → Nat → Pose numBones)
    (cfg : MultiConfig) (out : MultiOutput)
    (hout : export_multiple_animations_core numBones transform world pose trPose cfg
      = .ok out) :
    out.animation_helpers.head? = some ⟨cfg.unit_name ++ "Rest", 0, 0⟩ ∧
    out.frame_counts.head? = some 1 ∧
    out.frame_steps.head? = some 1 ∧
    out.animation_ranges.head? = some (restFrame cfg, restFrame cfg) ∧
    restFrame cfg = (if cfg.frame_start ≤ 0 then 0 else 1) ∧
    out.all_matrix_data.head? = some (collectMatrices numBones transform world
      (pose cfg.original_action (restFrame cfg))) := by
  obtain ⟨clips, tm, hm, hne, hrep⟩ :=
    core_ok_spec numBones transform world pose trPose cfg out hout
  subst hrep
  obtain ⟨t1, ht1, -⟩ := foldl_addMainClip_helpers clips
    (restOut numBones transform world pose cfg)
  obtain ⟨t2, ht2, -⟩ := foldl_addTransition_helpers
    ((transitions (included cfg)).map
      (fun p => processTransition cfg.export_all_frames numBones transform world
        trPose p.1 p.2))
    (clips.foldl addMainClip (restOut numBones transform world pose cfg))
  refine ⟨?_, ?_, ?_, ?_, rfl, ?_⟩
  · rw [ht2, ht1]
    simp [restOut]
  · simp [foldl_addTransition_frame_counts, foldl_addMainClip_frame_counts, restOut]
  · simp [foldl_addTransition_frame_steps, foldl_addMainClip_frame_steps, restOut]
  · simp [foldl_addTransition_animation_ranges, foldl_addMainClip_animation_ranges,
      restOut]
  · simp [foldl_addTransition_all_matrix_data, foldl_addMainClip_all_matrix_data,
      restOut]

/-! ## The single-export core (`export_animation_frames_raw`, lines 523-637) -/

/-- Configuration of one `export_animation_frames_raw` call: its arguments plus
the host state it reads.  The active action (`arm.animation_data.action`) is
flattened into `has_action` plus its name and integer frame range. -/
structure SingleConfig : Type where
  animation_name : String
  use_custom_name : Bool
  has_action : Bool
  action_name : String
  action_frame_start : Nat
  action_frame_end : Nat
  /-- the `start_frame` parameter (`None` → `scene.frame_start`) -/
  start_frame : Option Nat
  /-- the `end_frame` parameter (`None` → `scene.frame_end`) -/
  end_frame : Option Nat
  frame_step : Nat
  export_all_frames : Bool
  use_full_animation_range : Bool
  export_method : ExportMethod
  property_name : String
  scene_frame_start : Nat
  scene_frame_end : Nat
  has_armature : Bool
  blend_saved : Bool

/-- Name resolution (lines 532-539): prefer the active action's name unless a
custom name is requested; an empty remaining name is the ambiguous-name
failure. -/
def single_resolved_name (cfg : SingleConfig) : Option String :=
  let action_name := if cfg.has_action then cfg.action_name else ""
  if cfg.use_custom_name = false ∧ action_name ≠ "" then some action_name
  else if cfg.animation_name = "" then none
  else some cfg.animation_name

/-- Range resolution (lines 541-552): full-range mode needs an action and uses
`(1, int(action.frame_range[1]))`; otherwise `None` parameters fall back to the
scene's frame range. -/
def single_range (cfg : SingleConfig) : Except ExportError (Nat × Nat) :=
  if cfg.use_full_animation_range then
    if cfg.has_action = false then .error .noActionForFullRange
    else .ok (1, cfg.action_frame_end)
  else
    .ok (cfg.start_frame.getD cfg.scene_frame_start,
      cfg.end_frame.getD cfg.scene_frame_end)

/-- Output of a successful single export. -/
structure SingleOutput : Type where
  animation_name : String
  start_frame : Nat
  end_frame : Nat
  frames : List Nat
  num_frames : Nat
  frame_step : Nat
  data : List ℚ
deriving DecidableEq

/-- Pure-data model of `export_animation_frames_raw` (lines 523-637). -/
def export_animation_frames_raw_core (numBones : Nat) (transform world : Mat4)
    (pose : Option String → Nat → Pose numBones)
    (cfg : SingleConfig) : Except ExportError SingleOutput :=
  if cfg.has_armature = false then .error .missingArmature
  else
    match single_resolved_name cfg with
    | none => .error .ambiguousName
    | some animation_name => do
      let se ← single_range cfg
      if se.1 > se.2 then .error .invalidRangeSingle
      else
        let frames := framesToExport se.1 se.2 cfg.frame_step cfg.export_all_frames
        let data := packFrames numBones transform world
          (fun f => pose (if cfg.has_action then some cfg.action_name else none) f)
          frames
        if cfg.export_method = .BIN ∧ cfg.blend_saved = false then
          .error .unsavedDocument
        else
          .ok { animation_name := animation_name
                start_frame := se.1
                end_frame := se.2
                frames := frames
                num_frames := frames.length
                frame_step := cfg.frame_step
                data := data }

/-! ## C8: the invalid-range failure -/

lemma mapExcept_processClip_error_iff (export_all_frames : Bool) (numBones : Nat)
    (transform world : Mat4) (pose : Option String → Nat → Pose numBones)
    (l : List AnimationListItem) :
    (∃ nm, mapExcept (processClip export_all_frames numBones transform world pose) l
        = .error (.invalidRange nm)) ↔
      ∃ item ∈ l, clipEnd item < clipStart item := by
  induction l with
  | nil =>
    constructor
    · rintro ⟨nm, h⟩
      rw [mapExcept_nil] at h
      exact absurd h (by simp)
    · rintro ⟨item, hmem, -⟩
      simp at hmem
  | cons a l ih =>
    by_cases hbad : clipEnd a < clipStart a
    · constructor
      · intro _
        exact ⟨a, List.mem_cons_self a l, hbad⟩
      · intro _
        refine ⟨a.actionName, ?_⟩
        have ha : processClip export_all_frames numBones transform world pose a
            = .error (.invalidRange a.actionName) := by
          unfold processClip
          rw [if_pos hbad]
        unfold mapExcept
        rw [ha]
        rfl
    · have ha : ∃ c, processClip export_all_frames numBones transform world pose a
          = .ok c := by
        unfold processClip
        rw [if_neg (by omega)]
        exact ⟨_, rfl⟩
      obtain ⟨c, hc⟩ := ha
      have hcons : ∀ e, (mapExcept
          (processClip export_all_frames numBones transform world pose) (a :: l)
            = .error e) ↔
          mapExcept (processClip export_all_frames numBones transform world pose) l
            = .error e := by
        intro e
        rw [mapExcept_cons, hc]
        simp only [Bind.bind, Except.bind]
        cases hml : mapExcept
            (processClip export_all_frames numBones transform world pose) l with
        | error e' => simp
        | ok r => simp
      constructor
      · rintro ⟨nm, h⟩
        obtain ⟨item, hmem, hitem⟩ := ih.mp ⟨nm, (hcons _).mp h⟩
        exact ⟨item, List.mem_cons_of_mem a hmem, hitem⟩
      · rintro ⟨item, hmem, hitem⟩
        rcases List.mem_cons.mp hmem with rfl | hmem
        · exact absurd hitem hbad
        · obtain ⟨nm, h⟩ := ih.mpr ⟨item, hmem, hitem⟩
          exact ⟨nm, (hcons _).mpr h⟩

/-- C8: the export fails with the invalid-range error iff some clip's
(effective) start frame exceeds its end frame.  Three parts: (multi) under a
valid armature and non-empty selection, `export_multiple_animations` raises
"Start frame cannot be after end frame for animation: …" iff some included
clip has `start > end`; (single) under a valid armature, resolvable name and
resolvable range `(s, e)`, `export_animation_frames_raw` raises "Start frame
cannot be after end frame" iff `s > e`; (transitions) a synthesized transition
always has range `(1, 10)`, so a transition never triggers the error. -/
theorem C8_invalid_range (numBones : Nat) (transform world : Mat4)
    (pose : Option String → Nat → Pose numBones)
    (trPose : String → Nat → String → Nat → Nat → Pose numBones)
    (cfg : MultiConfig) (scfg : SingleConfig) (nm0 : String) (s e : Nat)
    (hArm : cfg.has_armature = true)
    (hne : (included cfg).isEmpty = false)
    (hsArm : scfg.has_armature = true)
    (hsName : single_resolved_name scfg = some nm0)
    (hsRange : single_range scfg = .ok (s, e)) :
    ((∃ nm, export_multiple_animations_core numBones transform world pose trPose cfg
        = .error (.invalidRange nm)) ↔
      ∃ item ∈ included cfg, clipEnd item < clipStart item) ∧
    ((export_animation_frames_raw_core numBones transform world pose scfg
        = .error .invalidRangeSingle) ↔ e < s) ∧
    (∀ (flag : Bool) (src dst : AnimationListItem),
      (processTransition flag numBones transform world trPose src dst).range
        = (1, transition_frames) ∧ (1 : Nat) ≤ transition_frames) := by
  refine ⟨?_, ?_, fun flag src dst => ⟨processTransition_range _ _ _ _ _ _ _, by simp [transition_frames]⟩⟩
  · unfold export_multiple_animations_core
    rw [if_neg (by simp [hArm]), if_neg (by simp [hne])]
    rw [← mapExcept_processClip_error_iff cfg.export_all_frames numBones transform
      world pose (included cfg)]
    cases hm : mapExcept
        (processClip cfg.export_all_frames numBones transform world pose)
        (included cfg) with
    | error err =>
      constructor
      · rintro ⟨nm, h⟩
        simp only [Bind.bind, Except.bind] at h
        cases h
        exact ⟨nm, rfl⟩
      · rintro ⟨nm, h⟩
        cases h
        exact ⟨nm, by simp [Bind.bind, Except.bind]⟩
    | ok clips =>
      constructor
      · rintro ⟨nm, h⟩
        simp only [Bind.bind, Except.bind] at h
        cases hem : cfg.export_method with
        | BIN =>
          rw [hem] at h
          by_cases h3 : cfg.blend_saved = false
          · rw [if_pos h3] at h
            exact absurd h (by simp)
          · rw [if_neg h3] at h
            exact absurd h (by simp)
        | PROPERTY =>
          rw [hem] at h
          exact absurd h (by simp)
      · rintro ⟨nm, h⟩
        exact absurd h (by simp)
  · unfold export_animation_frames_raw_core
    rw [if_neg (by simp [hsArm]), hsName, hsRange]
    simp only [Bind.bind, Except.bind]
    by_cases hlt : s > e
    · rw [if_pos hlt]
      exact iff_of_true rfl hlt
    · rw [if_neg hlt]
      constructor
      · intro h
        by_cases h4 : scfg.export_method = .BIN ∧ scfg.blend_saved = false
        · rw [if_pos h4] at h
          exact absurd h (by simp)
        · rw [if_neg h4] at h
          exact absurd h (by simp)
      · intro h
        omega

/-! ## C10: the `custom_end = 0` sentinel -/

/-- C10: for a clip that does not use its action's full range, a custom end
frame of 0 acts as a sentinel for the action's last frame: both the exported
range's end (`clipEnd`, line 253) and the source frame used to fabricate
transitions out of the clip (`last_frame`, lines 300-301) fall back to
`int(action.frame_range[1])` exactly when `custom_end` is 0. -/
theorem C10_custom_end_sentinel (item : AnimationListItem)
    (hfull : item.use_full_range = false) :
    (item.custom_end = 0 →
      clipEnd item = item.actionFrameEnd ∧ last_frame item = item.actionFrameEnd) ∧
    (item.custom_end ≠ 0 →
      clipEnd item = item.custom_end ∧ last_frame item = item.custom_end) := by
  constructor
  · intro h0
    simp [clipEnd, last_frame, hfull, h0]
  · intro h0
    simp [clipEnd, last_frame, hfull, h0]

/-- Concrete clip used by the C10 witness: `custom_end = 0`, action ends at
frame 42. -/
def wItemC10 : AnimationListItem :=
  { name := "Walk", hasAction := true, actionName := "Walk",
    actionFrameStart := 1, actionFrameEnd := 42, incl := true,
    frame_step := 1, use_full_range := false, custom_start := 3,
    custom_end := 0 }

/-- Witness for C10 at `wItemC10`. -/
theorem C10_custom_end_sentinel_witness :
    wItemC10.use_full_range = false ∧
    ((wItemC10.custom_end = 0 →
      clipEnd wItemC10 = wItemC10.actionFrameEnd ∧
      last_frame wItemC10 = wItemC10.actionFrameEnd) ∧
     (wItemC10.custom_end ≠ 0 →
      clipEnd wItemC10 = wItemC10.custom_end ∧
      last_frame wItemC10 = wItemC10.custom_end)) :=
  ⟨by decide, C10_custom_end_sentinel wItemC10 (by decide)⟩

/-! ## C5: the adjacency map -/

lemma lookupAssoc_updateAssoc (inner : List (String × String)) (k v k' : String) :
    lookupAssoc (updateAssoc inner k v) k'
      = if k' = k then some v else lookupAssoc inner k' := by
  induction inner with
  | nil =>
    by_cases h : k' = k
    · subst h
      simp [updateAssoc, lookupAssoc]
    · simp [updateAssoc, lookupAssoc, h, Ne.symm h]
  | cons p rest ih =>
    obtain ⟨k0, v0⟩ := p
    by_cases h0 : k0 = k
    · subst h0
      by_cases h : k' = k0
      · subst h
        simp [updateAssoc, lookupAssoc]
      · simp [updateAssoc, lookupAssoc, h, Ne.symm h]
    · by_cases h : k0 = k'
      · subst h
        simp [updateAssoc, lookupAssoc, h0]
      · simp [updateAssoc, lookupAssoc, h0, h, ih]

lemma lookupAssoc_setdefaultInsert (m : List (String × List (String × String)))
    (s' d' v : String) (s : String) :
    lookupAssoc (setdefaultInsert m s' d' v) s
      = if s = s' then
          some (match lookupAssoc m s' with
                | some inner => updateAssoc inner d' v
                | none => [(d', v)])
        else lookupAssoc m s := by
  induction m with
  | nil =>
    by_cases h : s = s'
    · subst h
      simp [setdefaultInsert, lookupAssoc]
    · simp [setdefaultInsert, lookupAssoc, h, Ne.symm h]
  | cons p rest ih =>
    obtain ⟨k0, inner⟩ := p
    by_cases h0 : k0 = s'
    · subst h0
      by_cases hs : k0 = s
      · subst hs
        simp [setdefaultInsert, lookupAssoc]
      · simp [setdefaultInsert, lookupAssoc, hs, Ne.symm hs]
    · by_cases hs : k0 = s
      · subst hs
        simp [setdefaultInsert, lookupAssoc, h0, Ne.symm h0]
      · simp [setdefaultInsert, lookupAssoc, h0, hs, ih]

lemma getTrans_insert (m : List (String × List (String × String)))
    (s' d' v s d : String) :
    getTrans (setdefaultInsert m s' d' v) s d
      = if s = s' ∧ d = d' then some v else getTrans m s d := by
  unfold getTrans
  rw [lookupAssoc_setdefaultInsert]
  by_cases hs : s = s'
  · subst hs
    cases hm : lookupAssoc m s with
    | none =>
      by_cases hd : d = d'
      · subst hd
        simp [lookupAssoc]
      · simp [lookupAssoc, hd, Ne.symm hd]
    | some inner =>
      by_cases hd : d = d'
      · subst hd
        simp [lookupAssoc_updateAssoc]
      · simp [lookupAssoc_updateAssoc, hd]
  · simp [hs]

lemma getTrans_transMapStep_mono (un : String)
    (m : List (String × List (String × String))) (tr : AnimHelper)
    (s d : String) (h : (getTrans m s d).isSome = true) :
    (getTrans (transMapStep un m tr) s d).isSome = true := by
  unfold transMapStep
  cases hp : srcDstParts un tr.name with
  | nil => exact h
  | cons x t =>
    cases t with
    | nil => exact h
    | cons y t2 =>
      cases t2 with
      | nil =>
        rw [getTrans_insert]
        by_cases hc : s = x ∧ d = y
        · rw [if_pos hc]; rfl
        · rw [if_neg hc]; exact h
      | cons z t3 => exact h

lemma getTrans_foldl_mono (un : String) (L : List AnimHelper)
    (m : List (String × List (String × String))) (s d : String)
    (h : (getTrans m s d).isSome = true) :
    (getTrans (L.foldl (transMapStep un) m) s d).isSome = true := by
  induction L generalizing m with
  | nil => exact h
  | cons tr rest ih =>
    exact ih (transMapStep un m tr) (getTrans_transMapStep_mono un m tr s d h)

lemma getTrans_foldl_present (un : String) (L : List AnimHelper)
    (m : List (String × List (String × String))) (a : AnimHelper)
    (ha : a ∈ L) (s d : String) (hp : srcDstParts un a.name = [s, d]) :
    (getTrans (L.foldl (transMapStep un) m) s d).isSome = true := by
  induction L generalizing m with
  | nil => simp at ha
  | cons tr rest ih =>
    rcases List.mem_cons.mp ha with rfl | ha
    · have hstep : getTrans (transMapStep un m a) s d = some a.name := by
        unfold transMapStep
        rw [hp, getTrans_insert, if_pos ⟨rfl, rfl⟩]
      refine getTrans_foldl_mono un rest _ s d ?_
      rw [hstep]
      rfl
    · exact ih (transMapStep un m tr) ha

lemma foldl_transMapStep_filter (un : String) :
    ∀ (L : List AnimHelper) (m : List (String × List (String × String))),
      L.foldl (transMapStep un) m
        = (L.filter (fun a => (srcDstParts un a.name).length == 2)).foldl
            (transMapStep un) m := by
  intro L
  induction L with
  | nil => intro m; rfl
  | cons tr rest ih =>
    intro m
    by_cases h2 : (srcDstParts un tr.name).length = 2
    · rw [List.foldl_cons, List.filter_cons_of_pos (by simpa using h2),
        List.foldl_cons, ih]
    · have hskip : transMapStep un m tr = m := by
        unfold transMapStep
        cases hp : srcDstParts un tr.name with
        | nil => rfl
        | cons x t =>
          cases t with
          | nil => rfl
          | cons y t2 =>
            cases t2 with
            | nil => exact absurd (by rw [hp]; rfl) h2
            | cons z t3 => rfl
      rw [List.foldl_cons, hskip, List.filter_cons_of_neg (by simpa using h2), ih]

/-- The `trans_map` of a successful BIN multi-export is the adjacency map built
from its Clip Records. -/
lemma core_ok_BIN_trans_map (numBones : Nat) (transform world : Mat4)
    (pose : Option String → Nat → Pose numBones)
    (trPose : String → Nat → String → Nat → Nat → Pose numBones)
    (cfg : MultiConfig) (out : MultiOutput)
    (hout : export_multiple_animations_core numBones transform world pose trPose cfg
      = .ok out)
    (hBIN : cfg.export_method = .BIN) :
    out.trans_map = buildTransMap cfg.unit_name out.animation_helpers := by
  unfold export_multiple_animations_core at hout
  by_cases h1 : cfg.has_armature = false
  · rw [if_pos h1] at hout
    exact absurd hout (by simp)
  · rw [if_neg h1] at hout
    by_cases h2 : (included cfg).isEmpty
    · rw [if_pos h2] at hout
      exact absurd hout (by simp)
    · rw [if_neg h2] at hout
      cases hm : mapExcept
          (processClip cfg.export_all_frames numBones transform world pose)
          (included cfg) with
      | error e =>
        rw [hm] at hout
        exact absurd hout (by simp [Bind.bind, Except.bind])
      | ok clips =>
        rw [hm] at hout
        simp only [Bind.bind, Except.bind] at hout
        rw [hBIN] at hout
        by_cases h3 : cfg.blend_saved = false
        · rw [if_pos h3] at hout
          exact absurd hout (by simp)
        · rw [if_neg h3] at hout
          cases hout
          rfl

/-- C5 (amended): in every successful BIN multi-export, the adjacency map is
built only from the transition-named Clip Records whose name splits into
exactly two parts after removing every occurrence of `"{unit_name}_"` — a
record whose processed name does not split into exactly two parts is excluded
from the map (while remaining a Clip Record); and for every record whose
processed name splits as `[src', dst']`, the map has an entry
`src' -> {dst' -> …}`.  The keys are the *processed* name parts, which
coincide with the pair's action names only when those names contain neither
`"{unit_name}_"` nor `"_To_"`. -/
theorem C5_adjacency (numBones : Nat) (transform world : Mat4)
    (pose : Option String → Nat → Pose numBones)
    (trPose : String → Nat → String → Nat → Nat → Pose numBones)
    (cfg : MultiConfig) (out : MultiOutput)
    (hout : export_multiple_animations_core numBones transform world pose trPose cfg
      = .ok out)
    (hBIN : cfg.export_method = .BIN) :
    out.trans_map = buildTransMap cfg.unit_name out.animation_helpers ∧
    buildTransMap cfg.unit_name out.animation_helpers
      = buildTransMap cfg.unit_name
          (out.animation_helpers.filter
            (fun a => (srcDstParts cfg.unit_name a.name).length == 2)) ∧
    (∀ a ∈ out.animation_helpers, containsToken a.name "_To_" = true →
      ∀ src dst, srcDstParts cfg.unit_name a.name = [src, dst] →
        (getTrans out.trans_map src dst).isSome = true) := by
  have htm := core_ok_BIN_trans_map numBones transform world pose trPose cfg out
    hout hBIN
  refine ⟨htm, ?_, ?_⟩
  · unfold buildTransMap
    rw [foldl_transMapStep_filter, List.filter_comm]
  · intro a ha hcont src dst hp
    rw [htm]
    unfold buildTransMap
    exact getTrans_foldl_present cfg.unit_name _ [] a
      (List.mem_filter.mpr ⟨ha, hcont⟩) src dst hp

/-! ## C4: host state across the multi-export run

The host's mutable state the export touches: `scene.frame_current` (via
`scene.frame_set`) and the armature's active action
(`arm.animation_data.action`).  `export_multiple_animations_run` threads this
state through the same control flow as the pure core; the top-level
`except Exception` handler (lines 514-518) returns `CANCELLED` with whatever
state was current at the raise — it performs no restoration. -/

/-- Host state touched by the export: current frame and active action. -/
structure HostState : Type where
  frame : Int
  action : Option String
deriving DecidableEq

/-- Result of the operator-level entry point: `{'FINISHED'}` or `{'CANCELLED'}`. -/
inductive OpResult : Type
  | FINISHED : OpResult
  | CANCELLED : OpResult
deriving DecidableEq

/-- State effects of the "Normal animations" loop (lines 242-292): per clip,
set the active action, validate the range (raising leaves the state as-is),
then `scene.frame_set` each sampled frame in order. -/
def mainLoopHost (export_all_frames : Bool) :
    List AnimationListItem → HostState → Option ExportError × HostState
  | [], s => (none, s)
  | item :: rest, s =>
    if clipStart item > clipEnd item then
      (some (.invalidRange item.actionName), { s with action := some item.actionName })
    else
      mainLoopHost export_all_frames rest
        ((framesToExport (clipStart item) (clipEnd item) item.frame_step
            export_all_frames).foldl
          (fun st (f : Nat) => { st with frame := (f : Int) })
          { s with action := some item.actionName })

/-- State effects of one transition iteration (lines 308-372): source pose at
`src_last`, transition frame 1, destination pose at `dst_first`, transition
frame 10, then the bake loop over frames `1..10` with the transition action
active. -/
def transHost (multi_export_all_frames : Bool)
    (src dst : AnimationListItem) (s : HostState) : HostState :=
  let tr_name := src.actionName ++ "_To_" ++ dst.actionName
  let sA : HostState := { s with action := some src.actionName }
  let sB : HostState := { sA with frame := (last_frame src : Int) }
  let sC : HostState := { sB with action := some tr_name }
  let sD : HostState := { sC with frame := 1 }
  let sE : HostState := { sD with action := some dst.actionName }
  let sF : HostState := { sE with frame := (first_frame dst : Int) }
  let sG : HostState := { sF with action := some tr_name }
  let sH : HostState := { sG with frame := 10 }
  let sI : HostState := { sH with action := some tr_name }
  (transitionFramesToExport multi_export_all_frames).foldl
    (fun st (f : Nat) => { st with frame := (f : Int) }) sI

/-- Model of `if arm.animation_data and original_action: arm.animation_data.action =
original_action` (lines 389-390 and 504-505): the action is restored only when
the captured value is non-`None` (and `animation_data` exists, which holds
whenever the captured action does). -/
def restoreAction (oa : Option String) (s : HostState) : HostState :=
  if oa.isSome then { s with action := oa } else s

/-- Host state after the transition phase and the line-389/390 restore, with
`oa` the value of `original_action` *as rebound at line 306*. -/
def afterTransitions (cfg : MultiConfig) (s2 : HostState) : HostState :=
  restoreAction s2.action
    ((transitions (included cfg)).foldl
      (fun st p => transHost cfg.export_all_frames p.1 p.2 st) s2)

/-- Host-state view of `export_multiple_animations` (lines 196-518).  Note
line 306 *rebinds* `original_action` to the action current after the main-clip
loop (the last clip's action), so the restores at lines 389 and 504-505 use
that value, not the one saved at line 213; and the `except` handler (lines
514-518) returns `CANCELLED` with the state current at the raise, restoring
nothing. -/
def export_multiple_animations_run (cfg : MultiConfig) (s0 : HostState) :
    OpResult × HostState :=
  if cfg.has_armature = false then (.CANCELLED, s0)
  else if (included cfg).isEmpty then (.CANCELLED, s0)
  else
    match mainLoopHost cfg.export_all_frames (included cfg)
        { s0 with frame := (restFrame cfg : Int) } with
    | (some _, s) => (.CANCELLED, s)
    | (none, s2) =>
      if cfg.export_method = .BIN ∧ cfg.blend_saved = false then
        (.CANCELLED, afterTransitions cfg s2)
      else
        (.FINISHED, restoreAction s2.action
          { afterTransitions cfg s2 with frame := s0.frame })

lemma foldl_set_frame_action (frames : List Nat) (s : HostState) :
    (frames.foldl (fun st (f : Nat) => { st with frame := (f : Int) }) s).action
      = s.action := by
  induction frames generalizing s with
  | nil => rfl
  | cons f fs ih => exact ih _

lemma restoreAction_frame (oa : Option String) (s : HostState) :
    (restoreAction oa s).frame = s.frame := by
  unfold restoreAction
  by_cases h : oa.isSome
  · rw [if_pos h]
  · rw [if_neg h]

lemma restoreAction_action_of_isSome (oa : Option String) (s : HostState)
    (h : oa.isSome = true) : (restoreAction oa s).action = oa := by
  unfold restoreAction
  rw [if_pos h]

lemma mainLoopHost_ok_action (export_all_frames : Bool) :
    ∀ (l : List AnimationListItem) (s s2 : HostState),
      mainLoopHost export_all_frames l s = (none, s2) → l ≠ [] →
      s2.action = (l.getLast?.map (fun it => it.actionName)) := by
  intro l
  induction l with
  | nil => intro s s2 _ hne; exact absurd rfl hne
  | cons item rest ih =>
    intro s s2 hrun _
    unfold mainLoopHost at hrun
    by_cases hbad : clipStart item > clipEnd item
    · rw [if_pos hbad] at hrun
      exact absurd hrun (by simp)
    · rw [if_neg hbad] at hrun
      rcases rest with _ | ⟨r, rs⟩
      · unfold mainLoopHost at hrun
        cases hrun
        rw [foldl_set_frame_action]
        rfl
      · have := ih _ s2 hrun (by simp)
        rw [this]
        simp only [List.getLast?_cons_cons]

/-- C4 (amended): when the multi-export run *succeeds*, the host's current
frame is restored to its original value, while the active action is set to
the *last included clip's* action (because line 306 rebinds `original_action`
after the main loop) — not the pre-export action.  A *failing* run restores
nothing: the `except` handler returns `CANCELLED` with the frame and action
current at the raise (see `C4_counterexample`). -/
theorem C4_restore_on_success (cfg : MultiConfig) (s0 s1 : HostState)
    (hrun : export_multiple_animations_run cfg s0 = (.FINISHED, s1)) :
    s1.frame = s0.frame ∧
    s1.action = ((included cfg).getLast?.map (fun it => it.actionName)) := by
  unfold export_multiple_animations_run at hrun
  by_cases h1 : cfg.has_armature = false
  · rw [if_pos h1] at hrun
    exact absurd hrun (by simp)
  · rw [if_neg h1] at hrun
    by_cases h2 : (included cfg).isEmpty
    · rw [if_pos h2] at hrun
      exact absurd hrun (by simp)
    · rw [if_neg h2] at hrun
      cases hm : mainLoopHost cfg.export_all_frames (included cfg)
          { s0 with frame := (restFrame cfg : Int) } with
      | mk err s2 =>
        rw [hm] at hrun
        cases err with
        | some e => exact absurd hrun (by simp)
        | none =>
          dsimp only at hrun
          have hact : s2.action
              = ((included cfg).getLast?.map (fun it => it.actionName)) :=
            mainLoopHost_ok_action cfg.export_all_frames (included cfg) _ s2 hm
              (by simpa [List.isEmpty_iff] using h2)
          have hsome : s2.action.isSome = true := by
            rw [hact]
            have hne : (included cfg) ≠ [] := by
              simpa [List.isEmpty_iff] using h2
            cases hlast : (included cfg).getLast? with
            | none =>
              rw [List.getLast?_eq_getLast _ hne] at hlast
              exact absurd hlast (by simp)
            | some it => rfl
          by_cases h3 : cfg.export_method = .BIN ∧ cfg.blend_saved = false
          · rw [if_pos h3] at hrun
            exact absurd hrun (by simp)
          · rw [if_neg h3] at hrun
            cases hrun
            refine ⟨restoreAction_frame _ _, ?_⟩
            rw [restoreAction_action_of_isSome _ _ hsome, hact]

/-! ## Concrete fixtures for witnesses and counterexamples

All fixtures use `numBones = 0` (an armature with no pose bones), which makes
every matrix segment empty and keeps concrete evaluation cheap; the length and
structure claims are independent of the bone count. -/

/-- Pose source for a boneless armature. -/
def zeroPose : Option String → Nat → Pose 0 := fun _ _ b => b.elim0

/-- Transition pose source for a boneless armature. -/
def zeroTrPose : String → Nat → String → Nat → Nat → Pose 0 :=
  fun _ _ _ _ _ b => b.elim0

/-- Included clip "Walk", full action range 1..3, step 2. -/
def wItemWalk : AnimationListItem :=
  { name := "Walk", hasAction := true, actionName := "Walk",
    actionFrameStart := 1, actionFrameEnd := 3, incl := true, frame_step := 2,
    use_full_range := true, custom_start := 1, custom_end := 3 }

/-- Included clip "Run", full action range 1..2, step 1. -/
def wItemRun : AnimationListItem :=
  { name := "Run", hasAction := true, actionName := "Run",
    actionFrameStart := 1, actionFrameEnd := 2, incl := true, frame_step := 1,
    use_full_range := true, custom_start := 1, custom_end := 2 }

/-- A 2-clip multi-export configuration (PROPERTY target). -/
def wCfg : MultiConfig :=
  { unit_name := "unit", export_all_frames := false,
    animation_list := [wItemWalk, wItemRun], frame_start := 1,
    original_action := some "Walk", has_armature := true,
    blend_saved := false, export_method := .PROPERTY }

/-- Witness for C2 at `wCfg`: 2 included clips give 2 transitions and
`1 + 2 + 2 = 5` Clip Records, each transition holding 10 frame positions. -/
theorem C2_transition_pairs_witness :
    ∃ out, export_multiple_animations_core 0 wTransform wWorld zeroPose zeroTrPose
        wCfg = .ok out ∧
      (out.animation_helpers.length
          = 1 + (included wCfg).length
              + (included wCfg).length * ((included wCfg).length - 1) ∧
        out.frame_counts.length
          = 1 + (included wCfg).length
              + (included wCfg).length * ((included wCfg).length - 1) ∧
        out.frame_counts.drop (1 + (included wCfg).length)
          = List.replicate ((included wCfg).length * ((included wCfg).length - 1)) 10 ∧
        (out.all_matrix_data.drop (1 + (included wCfg).length)).map List.length
          = List.replicate ((included wCfg).length * ((included wCfg).length - 1))
              (10 * (0 * 16))) ∧
      (included wCfg).length = 2 ∧
      out.animation_helpers.length = 5 := by
  refine ⟨_, rfl, C2_transition_pairs 0 wTransform wWorld zeroPose zeroTrPose
    wCfg _ rfl, rfl, ?_⟩
  exact (C2_transition_pairs 0 wTransform wWorld zeroPose zeroTrPose wCfg _ rfl).1

/-- Witness for C3 at `wCfg`. -/
theorem C3_partition_witness :
    ∃ out, export_multiple_animations_core 0 wTransform wWorld zeroPose zeroTrPose
        wCfg = .ok out ∧
      ((∀ h0, out.animation_helpers.head? = some h0 → h0.start_idx = 0) ∧
        List.Chain' (fun a b => a.end_idx + 1 = b.start_idx) out.animation_helpers ∧
        out.total_frames
          = (out.animation_helpers.map (fun h => h.end_idx - h.start_idx + 1)).sum) :=
  ⟨_, rfl, C3_partition 0 wTransform wWorld zeroPose zeroTrPose wCfg _ rfl⟩

/-- Witness for C7 at `wCfg`. -/
theorem C7_buffer_lengths_witness :
    ∃ out, export_multiple_animations_core 0 wTransform wWorld zeroPose zeroTrPose
        wCfg = .ok out ∧
      (List.Forall₂ (fun (seg : List ℚ) (cnt : Nat) => seg.length = cnt * 0 * 16)
        out.all_matrix_data out.frame_counts ∧
      out.all_matrix_data.flatten.length = out.total_frames * 0 * 16) :=
  ⟨_, rfl, C7_buffer_lengths 0 wTransform wWorld zeroPose zeroTrPose wCfg _ rfl⟩

/-- Witness for C9 at `wCfg` (scene start frame 1, so the rest pose samples
scene frame 1). -/
theorem C9_rest_record_witness :
    ∃ out, export_multiple_animations_core 0 wTransform wWorld zeroPose zeroTrPose
        wCfg = .ok out ∧
      (out.animation_helpers.head? = some ⟨wCfg.unit_name ++ "Rest", 0, 0⟩ ∧
        out.frame_counts.head? = some 1 ∧
        out.frame_steps.head? = some 1 ∧
        out.animation_ranges.head? = some (restFrame wCfg, restFrame wCfg) ∧
        restFrame wCfg = (if wCfg.frame_start ≤ 0 then 0 else 1) ∧
        out.all_matrix_data.head? = some (collectMatrices 0 wTransform wWorld
          (zeroPose wCfg.original_action (restFrame wCfg)))) :=
  ⟨_, rfl, C9_rest_record 0 wTransform wWorld zeroPose zeroTrPose wCfg _ rfl⟩

/-- Included clip whose custom range is invalid (start 5 after end 3). -/
def wItemBad : AnimationListItem :=
  { name := "Walk", hasAction := true, actionName := "Walk",
    actionFrameStart := 1, actionFrameEnd := 9, incl := true, frame_step := 1,
    use_full_range := false, custom_start := 5, custom_end := 3 }

/-- Multi-export configuration whose only included clip has an invalid range. -/
def cfgBad : MultiConfig :=
  { unit_name := "unit", export_all_frames := false,
    animation_list := [wItemBad], frame_start := 1,
    original_action := some "Orig", has_armature := true,
    blend_saved := false, export_method := .PROPERTY }

/-- Single-export configuration with an invalid explicit range (7 after 3). -/
def sCfgBad : SingleConfig :=
  { animation_name := "", use_custom_name := false, has_action := true,
    action_name := "Walk", action_frame_start := 1, action_frame_end := 9,
    start_frame := some 7, end_frame := some 3, frame_step := 1,
    export_all_frames := false, use_full_animation_range := false,
    export_method := .PROPERTY, property_name := "animation_matrices",
    scene_frame_start := 1, scene_frame_end := 10, has_armature := true,
    blend_saved := false }

/-- Witness for C8 at `cfgBad` / `sCfgBad`. -/
theorem C8_invalid_range_witness :
    (cfgBad.has_armature = true ∧ (included cfgBad).isEmpty = false ∧
     sCfgBad.has_armature = true ∧
     single_resolved_name sCfgBad = some "Walk" ∧
     single_range sCfgBad = .ok (7, 3)) ∧
    (((∃ nm, export_multiple_animations_core 0 wTransform wWorld zeroPose zeroTrPose
          cfgBad = .error (.invalidRange nm)) ↔
        ∃ item ∈ included cfgBad, clipEnd item < clipStart item) ∧
      ((export_animation_frames_raw_core 0 wTransform wWorld zeroPose sCfgBad
          = .error .invalidRangeSingle) ↔ 3 < 7) ∧
      (∀ (flag : Bool) (src dst : AnimationListItem),
        (processTransition flag 0 wTransform wWorld zeroTrPose src dst).range
          = (1, transition_frames) ∧ (1 : Nat) ≤ transition_frames)) :=
  ⟨⟨rfl, rfl, rfl, rfl, rfl⟩,
    C8_invalid_range 0 wTransform wWorld zeroPose zeroTrPose cfgBad sCfgBad
      "Walk" 7 3 rfl rfl rfl rfl rfl⟩

/-- Counterexample to C4 as stated: running the multi-export on `cfgBad` from
host state `(frame 7, action "Orig")` fails inside the main loop *after* the
rest-pose step already moved the current frame to 1 and the loop set the
active action to "Walk"; the entry point returns `CANCELLED` with frame 1 and
action "Walk" — neither the original frame 7 nor the original action "Orig"
is restored. -/
theorem C4_counterexample :
    export_multiple_animations_run cfgBad ⟨7, some "Orig"⟩
      = (.CANCELLED, ⟨1, some "Walk"⟩) ∧
    (1 : Int) ≠ 7 ∧ (some "Walk" : Option String) ≠ some "Orig" :=
  ⟨rfl, by decide, by decide⟩

/-- One-clip multi-export configuration that succeeds (PROPERTY target). -/
def cfgRunOk : MultiConfig :=
  { unit_name := "unit", export_all_frames := false,
    animation_list := [wItemRun], frame_start := 1,
    original_action := some "Orig", has_armature := true,
    blend_saved := false, export_method := .PROPERTY }

/-- Witness for the amended C4 at `cfgRunOk`: the successful run restores the
original frame 7 and leaves the last included clip's action ("Run", not the
original "Orig") active. -/
theorem C4_restore_on_success_witness :
    export_multiple_animations_run cfgRunOk ⟨7, some "Orig"⟩
      = (.FINISHED, ⟨7, some "Run"⟩) ∧
    ((⟨7, some "Run"⟩ : HostState).frame = (⟨7, some "Orig"⟩ : HostState).frame ∧
      (⟨7, some "Run"⟩ : HostState).action
        = ((included cfgRunOk).getLast?.map (fun it => it.actionName))) :=
  ⟨rfl, C4_restore_on_success cfgRunOk ⟨7, some "Orig"⟩ ⟨7, some "Run"⟩ rfl⟩

/-- Included clip whose action name contains the unit-name prefix. -/
def wItemUW : AnimationListItem :=
  { name := "unit_Walk", hasAction := true, actionName := "unit_Walk",
    actionFrameStart := 1, actionFrameEnd := 2, incl := true, frame_step := 1,
    use_full_range := true, custom_start := 1, custom_end := 2 }

/-- BIN multi-export whose first clip's action name contains `"unit_"`. -/
def cfgC5 : MultiConfig :=
  { unit_name := "unit", export_all_frames := false,
    animation_list := [wItemUW, wItemRun], frame_start := 1,
    original_action := some "unit_Walk", has_armature := true,
    blend_saved := true, export_method := .BIN }

/-- Counterexample to C5 as stated: in the BIN export of `cfgC5` the pair
(`unit_Walk`, `Run`) is included and distinct, its transition clip
`unit_Walk_To_Run` is a Clip Record whose name splits into exactly two parts
after stripping the unit-name prefix — yet the adjacency map contains *no*
entry keyed by the source clip name `unit_Walk` (the code's
`replace(f"{unit_name}_", "")` mangles the key to `Walk`). -/
theorem C5_counterexample :
    (match export_multiple_animations_core 0 wTransform wWorld zeroPose zeroTrPose
        cfgC5 with
     | .ok out => some (out.animation_helpers.map AnimHelper.name,
         lookupAssoc out.trans_map "unit_Walk",
         getTrans out.trans_map "unit_Walk" "Run",
         getTrans out.trans_map "Walk" "Run")
     | .error _ => none)
      = some (["unitRest", "unit_Walk", "Run", "unit_Walk_To_Run",
               "Run_To_unit_Walk"],
              none, none, some "unit_Walk_To_Run") ∧
    (srcDstParts "unit" "unit_Walk_To_Run").length = 2 :=
  ⟨rfl, rfl⟩

/-- Witness for the amended C5 at `cfgC5`. -/
theorem C5_adjacency_witness :
    ∃ out, export_multiple_animations_core 0 wTransform wWorld zeroPose zeroTrPose
        cfgC5 = .ok out ∧ cfgC5.export_method = .BIN ∧
      (out.trans_map = buildTransMap cfgC5.unit_name out.animation_helpers ∧
        buildTransMap cfgC5.unit_name out.animation_helpers
          = buildTransMap cfgC5.unit_name
              (out.animation_helpers.filter
                (fun a => (srcDstParts cfgC5.unit_name a.name).length == 2)) ∧
        (∀ a ∈ out.animation_helpers, containsToken a.name "_To_" = true →
          ∀ src dst, srcDstParts cfgC5.unit_name a.name = [src, dst] →
            (getTrans out.trans_map src dst).isSome = true)) :=
  ⟨_, rfl, rfl, C5_adjacency 0 wTransform wWorld zeroPose zeroTrPose cfgC5 _ rfl rfl⟩

end AnimationFrameExporter
